import Mathlib

/-!
Shallow embedding of the Lox front end (lexer, recursive-descent expression
parser, AST printer) from `src/lexer.rs`, `src/parser.rs`,
`src/abstract_syntax_tree.rs` and `src/token.rs`.

Modelling conventions:
* The source buffer is the byte sequence `List Nat` of its UTF-8 bytes
  (`&str` / `as_bytes` in Rust); lexemes (`&str` slices of the source) are
  byte sublists.
* Mutation of `&mut self` becomes explicit state passing: a Rust method
  returning `T` becomes a Lean function returning `T × State` (or just the
  new state when `T` is `()`).
* Each Rust `while` loop and the recursion inside `next_token` is modelled
  by structural recursion on an explicit fuel argument; the wrapper passes
  fuel that provably dominates the number of iterations (each iteration
  consumes at least one byte), so the fuel-exhaustion case is unreachable
  from the wrappers.
* `column_number` of `LexerError` is computed in Rust by grapheme-cluster
  segmentation of the source line (the `unicode_segmentation` crate); that
  field is outside this byte-level model and is omitted.  No claim mentions
  it.  The `line_number` field is kept.
-/

/-- UTF-8 bytes of a string, as natural numbers (all sources in the claims
are ASCII, where each character is one byte). -/
def strBytes (s : String) : List Nat :=
  s.data.map Char.toNat

/-- `u8::is_ascii_digit`. -/
def isAsciiDigit (b : Nat) : Bool :=
  48 ≤ b && b ≤ 57

/-- `u8::is_ascii_alphabetic`. -/
def isAsciiAlphabetic (b : Nat) : Bool :=
  (65 ≤ b && b ≤ 90) || (97 ≤ b && b ≤ 122)

/-- `u8::is_ascii_alphanumeric`. -/
def isAsciiAlphanumeric (b : Nat) : Bool :=
  isAsciiAlphabetic b || isAsciiDigit b

/-- `u8::is_ascii_whitespace`: space, horizontal tab, line feed, form feed,
carriage return. -/
def isAsciiWhitespace (b : Nat) : Bool :=
  b == 32 || b == 9 || b == 10 || b == 12 || b == 13

/-- `TokenKind` from `src/token.rs`, with the `String`/`Number` literal-kind
names used by `src/lexer.rs` and `src/parser.rs`. -/
inductive TokenKind where
  | Unrecognized
  | EndOfFile
  | LeftParentheses
  | RightParentheses
  | LeftBrace
  | RightBrace
  | Comma
  | Dot
  | Minus
  | Plus
  | Semicolon
  | Slash
  | Star
  | Bang
  | BangEqual
  | Equal
  | EqualEqual
  | Greater
  | GreaterEqual
  | Less
  | LessEqual
  | Identifier
  | String
  | Number
  | And
  | Class
  | Else
  | False
  | Fun
  | For
  | If
  | Nil
  | Or
  | Print
  | Return
  | Super
  | This
  | True
  | Var
  | While
deriving DecidableEq, Repr

/-- `TokenKind::parse_keyword`: total keyword lookup on the lexeme bytes,
defaulting to `Identifier`. -/
def TokenKind.parse_keyword (identifier_lexeme : List Nat) : TokenKind :=
  if identifier_lexeme = [97, 110, 100] then TokenKind.And  -- "and"
  else if identifier_lexeme = [99, 108, 97, 115, 115] then TokenKind.Class  -- "class"
  else if identifier_lexeme = [101, 108, 115, 101] then TokenKind.Else  -- "else"
  else if identifier_lexeme = [102, 97, 108, 115, 101] then TokenKind.False  -- "false"
  else if identifier_lexeme = [102, 111, 114] then TokenKind.For  -- "for"
  else if identifier_lexeme = [102, 117, 110] then TokenKind.Fun  -- "fun"
  else if identifier_lexeme = [105, 102] then TokenKind.If  -- "if"
  else if identifier_lexeme = [110, 105, 108] then TokenKind.Nil  -- "nil"
  else if identifier_lexeme = [111, 114] then TokenKind.Or  -- "or"
  else if identifier_lexeme = [112, 114, 105, 110, 116] then TokenKind.Print  -- "print"
  else if identifier_lexeme = [114, 101, 116, 117, 114, 110] then TokenKind.Return  -- "return"
  else if identifier_lexeme = [115, 117, 112, 101, 114] then TokenKind.Super  -- "super"
  else if identifier_lexeme = [116, 104, 105, 115] then TokenKind.This  -- "this"
  else if identifier_lexeme = [116, 114, 117, 101] then TokenKind.True  -- "true"
  else if identifier_lexeme = [118, 97, 114] then TokenKind.Var  -- "var"
  else if identifier_lexeme = [119, 104, 105, 108, 101] then TokenKind.While  -- "while"
  else TokenKind.Identifier

/-- `TokenKind::is_end_of_file`. -/
def TokenKind.is_end_of_file (k : TokenKind) : Bool :=
  k == TokenKind.EndOfFile

/-- `TokenKind::EQUALITY_OPERATORS`. -/
def TokenKind.EQUALITY_OPERATORS : List TokenKind :=
  [TokenKind.BangEqual, TokenKind.EqualEqual]

/-- `TokenKind::COMPARISON_OPERATORS`. -/
def TokenKind.COMPARISON_OPERATORS : List TokenKind :=
  [TokenKind.Less, TokenKind.LessEqual, TokenKind.Greater, TokenKind.GreaterEqual]

/-- `TokenKind::TERM_OPERATORS`. -/
def TokenKind.TERM_OPERATORS : List TokenKind :=
  [TokenKind.Plus, TokenKind.Minus]

/-- `TokenKind::FACTOR_OPERATORS`. -/
def TokenKind.FACTOR_OPERATORS : List TokenKind :=
  [TokenKind.Star, TokenKind.Slash]

/-- `TokenKind::UNARY_OPERATORS`. -/
def TokenKind.UNARY_OPERATORS : List TokenKind :=
  [TokenKind.Bang, TokenKind.Minus]

/-- `Token` as constructed by `src/lexer.rs` (`Token::new(kind, lexeme,
line_number)`): a kind, the lexeme bytes, and the 1-based line number. -/
structure Token where
  kind : TokenKind
  lexeme : List Nat
  line : Nat
deriving DecidableEq, Repr

/-- `Token::end_of_file(line)`: synthetic end-of-file token with empty
lexeme. -/
def Token.end_of_file (line : Nat) : Token :=
  ⟨TokenKind.EndOfFile, [], line⟩

/-- `Token::is_end_of_file`. -/
def Token.is_end_of_file (t : Token) : Bool :=
  t.kind.is_end_of_file

/-- `LexerErrorKind` from `src/lexer.rs`. -/
inductive LexerErrorKind where
  | Unrecognized
  | UnterminatedStringLiteral
  | NumberTrailingDot
deriving DecidableEq, Repr

/-- `LexerError` from `src/lexer.rs` (the grapheme-segmentation
`column_number` field is omitted, see the module comment). -/
structure LexerError where
  kind : LexerErrorKind
  token : Token
  line_number : Nat
deriving DecidableEq, Repr

/-- `Lexer` state from `src/lexer.rs`. -/
structure Lexer where
  source : List Nat
  lexeme_start : Nat
  lexeme_end : Nat
  line_number : Nat
  end_of_file_emitted : Bool
deriving DecidableEq, Repr

/-- `Lexer::new`. -/
def Lexer.new (source : List Nat) : Lexer :=
  ⟨source, 0, 0, 1, false⟩

/-- `Lexer::current_byte_available`. -/
def Lexer.current_byte_available (l : Lexer) : Bool :=
  l.lexeme_end < l.source.length

/-- `Lexer::next_byte_available`. -/
def Lexer.next_byte_available (l : Lexer) : Bool :=
  l.lexeme_end + 1 < l.source.length

/-- `Lexer::get_current_byte` (`source.as_bytes()[lexeme_end]`; the Rust
index panics out of bounds, every call site guards with
`current_byte_available`; out of bounds we return 0). -/
def Lexer.get_current_byte (l : Lexer) : Nat :=
  l.source.getD l.lexeme_end 0

/-- `Lexer::get_next_byte` (guarded by `next_byte_available`). -/
def Lexer.get_next_byte (l : Lexer) : Nat :=
  l.source.getD (l.lexeme_end + 1) 0

/-- `Lexer::consume_current_byte`. -/
def Lexer.consume_current_byte (l : Lexer) : Lexer :=
  { l with lexeme_end := l.lexeme_end + 1 }

/-- `Lexer::get_current_lexeme`: the slice
`source[lexeme_start..lexeme_end]`. -/
def Lexer.get_current_lexeme (l : Lexer) : List Nat :=
  (l.source.drop l.lexeme_start).take (l.lexeme_end - l.lexeme_start)

/-- `Lexer::get_current_token`. -/
def Lexer.get_current_token (l : Lexer) (kind : TokenKind) : Token :=
  ⟨kind, l.get_current_lexeme, l.line_number⟩

/-- `Lexer::error` (the `column_number` computed by grapheme segmentation is
omitted; `line_number` is `self.line_number` as in
`calculate_lexeme_position`). -/
def Lexer.mkError (l : Lexer) (token : Token) (kind : LexerErrorKind) : LexerError :=
  ⟨kind, token, l.line_number⟩

/-- Models the assignment `self.lexeme_start = self.lexeme_end` at the top
of `Lexer::next_token`. -/
def Lexer.start_lexeme (l : Lexer) : Lexer :=
  { l with lexeme_start := l.lexeme_end }

/-- Models `self.line_number += 1` (taken on a newline byte). -/
def Lexer.increment_line_number (l : Lexer) : Lexer :=
  { l with line_number := l.line_number + 1 }

/-- Loop body of `Lexer::consume_comment_line`
(`while current_byte_available && get_current_byte != b'\n'`), by recursion
on fuel; each iteration consumes one byte. -/
def Lexer.consume_comment_line_aux : Nat → Lexer → Lexer
  | 0, l => l
  | n + 1, l =>
    if l.current_byte_available && !(l.get_current_byte == 10) then
      Lexer.consume_comment_line_aux n l.consume_current_byte
    else l

/-- `Lexer::consume_comment_line`; fuel `source.length - lexeme_end`
dominates the iteration count. -/
def Lexer.consume_comment_line (l : Lexer) : Lexer :=
  Lexer.consume_comment_line_aux (l.source.length - l.lexeme_end) l

/-- Loop body of `Lexer::consume_whitespace` (newlines increment
`line_number`). -/
def Lexer.consume_whitespace_aux : Nat → Lexer → Lexer
  | 0, l => l
  | n + 1, l =>
    if l.current_byte_available && isAsciiWhitespace l.get_current_byte then
      Lexer.consume_whitespace_aux n
        (if l.get_current_byte == 10 then l.increment_line_number.consume_current_byte
        else l.consume_current_byte)
    else l

/-- `Lexer::consume_whitespace`. -/
def Lexer.consume_whitespace (l : Lexer) : Lexer :=
  Lexer.consume_whitespace_aux (l.source.length - l.lexeme_end) l

/-- Loop body of `Lexer::consume_string_literal`: consume bytes until just
after a closing `"` (byte 34); when the source is exhausted first, fail with
`UnterminatedStringLiteral` (the fuel-0 case coincides with the
loop-exhausted case because fuel `source.length - lexeme_end` reaches 0
exactly when no byte is available). -/
def Lexer.consume_string_literal_aux : Nat → Lexer → Lexer × Option LexerError
  | 0, l =>
    (l, some (l.mkError (l.get_current_token TokenKind.String)
      LexerErrorKind.UnterminatedStringLiteral))
  | n + 1, l =>
    if l.current_byte_available then
      if l.get_current_byte == 34 then (l.consume_current_byte, none)
      else Lexer.consume_string_literal_aux n l.consume_current_byte
    else
      (l, some (l.mkError (l.get_current_token TokenKind.String)
        LexerErrorKind.UnterminatedStringLiteral))

/-- `Lexer::consume_string_literal`. -/
def Lexer.consume_string_literal (l : Lexer) : Lexer × Option LexerError :=
  Lexer.consume_string_literal_aux (l.source.length - l.lexeme_end) l

/-- The two `while … is_ascii_digit` loops of
`Lexer::consume_number_literal`. -/
def Lexer.consume_digits_aux : Nat → Lexer → Lexer
  | 0, l => l
  | n + 1, l =>
    if l.current_byte_available && isAsciiDigit l.get_current_byte then
      Lexer.consume_digits_aux n l.consume_current_byte
    else l

/-- Wrapper giving the digit-run loop its dominating fuel. -/
def Lexer.consume_digits (l : Lexer) : Lexer :=
  Lexer.consume_digits_aux (l.source.length - l.lexeme_end) l

/-- `Lexer::consume_number_literal`: digits, then optionally `.` followed by
at least one digit; a dot with no digit after it fails with
`NumberTrailingDot` (note: the dot is not consumed on failure). -/
def Lexer.consume_number_literal (l : Lexer) : Lexer × Option LexerError :=
  let l := l.consume_digits
  if !l.current_byte_available then (l, none)
  else if l.get_current_byte == 46 then
    if !l.next_byte_available || !isAsciiDigit l.get_next_byte then
      (l, some (l.mkError (l.get_current_token TokenKind.Number)
        LexerErrorKind.NumberTrailingDot))
    else
      (l.consume_current_byte.consume_digits, none)
  else (l, none)

/-- Loop body of `Lexer::consume_identifier`. -/
def Lexer.consume_identifier_aux : Nat → Lexer → Lexer
  | 0, l => l
  | n + 1, l =>
    if l.current_byte_available &&
        (isAsciiAlphanumeric l.get_current_byte || l.get_current_byte == 95) then
      Lexer.consume_identifier_aux n l.consume_current_byte
    else l

/-- `Lexer::consume_identifier`. -/
def Lexer.consume_identifier (l : Lexer) : Lexer :=
  Lexer.consume_identifier_aux (l.source.length - l.lexeme_end) l

/-- `Lexer::is_current_byte_unrecognized`.  Note the first match arm of the
Rust source: the recognized punctuation bytes
`( ) { } , . - + ; * ! = < > / "` are mapped to `true`, the same value as
the catch-all arm. -/
def Lexer.is_current_byte_unrecognized (l : Lexer) : Bool :=
  if l.get_current_byte == 40 || l.get_current_byte == 41 ||
      l.get_current_byte == 123 || l.get_current_byte == 125 ||
      l.get_current_byte == 44 || l.get_current_byte == 46 ||
      l.get_current_byte == 45 || l.get_current_byte == 43 ||
      l.get_current_byte == 59 || l.get_current_byte == 42 ||
      l.get_current_byte == 33 || l.get_current_byte == 61 ||
      l.get_current_byte == 60 || l.get_current_byte == 62 ||
      l.get_current_byte == 47 || l.get_current_byte == 34 then
    true
  else if isAsciiAlphanumeric l.get_current_byte ||
      isAsciiWhitespace l.get_current_byte || l.get_current_byte == 95 then
    false
  else true

/-- Loop body of `Lexer::consume_unrecognized_lexeme`. -/
def Lexer.consume_unrecognized_lexeme_aux : Nat → Lexer → Lexer
  | 0, l => l
  | n + 1, l =>
    if l.current_byte_available && l.is_current_byte_unrecognized then
      Lexer.consume_unrecognized_lexeme_aux n l.consume_current_byte
    else l

/-- `Lexer::consume_unrecognized_lexeme`. -/
def Lexer.consume_unrecognized_lexeme (l : Lexer) : Lexer :=
  Lexer.consume_unrecognized_lexeme_aux (l.source.length - l.lexeme_end) l

/-- `Lexer::next_token`, on fuel: the Rust function recurses (comment and
whitespace arms) after consuming at least one byte, so its recursion depth
is at most `source.length - lexeme_end + 1`, which the wrapper passes.  The
fuel-0 branch is unreachable from the wrapper and returns the end-of-file
result.  The match arms appear in source order. -/
def Lexer.next_token_aux : Nat → Lexer → Except LexerError Token × Lexer
  | 0, l =>
    (Except.ok (Token.end_of_file l.line_number), { l with end_of_file_emitted := true })
  | n + 1, l =>
    if !l.current_byte_available then
      (Except.ok (Token.end_of_file l.line_number), { l with end_of_file_emitted := true })
    else if l.start_lexeme.get_current_byte == 40 then
      (Except.ok (l.start_lexeme.consume_current_byte.get_current_token TokenKind.LeftParentheses),
        l.start_lexeme.consume_current_byte)
    else if l.start_lexeme.get_current_byte == 41 then
      (Except.ok (l.start_lexeme.consume_current_byte.get_current_token TokenKind.RightParentheses),
        l.start_lexeme.consume_current_byte)
    else if l.start_lexeme.get_current_byte == 123 then
      (Except.ok (l.start_lexeme.consume_current_byte.get_current_token TokenKind.LeftBrace),
        l.start_lexeme.consume_current_byte)
    else if l.start_lexeme.get_current_byte == 125 then
      (Except.ok (l.start_lexeme.consume_current_byte.get_current_token TokenKind.RightBrace),
        l.start_lexeme.consume_current_byte)
    else if l.start_lexeme.get_current_byte == 44 then
      (Except.ok (l.start_lexeme.consume_current_byte.get_current_token TokenKind.Comma),
        l.start_lexeme.consume_current_byte)
    else if l.start_lexeme.get_current_byte == 46 then
      (Except.ok (l.start_lexeme.consume_current_byte.get_current_token TokenKind.Dot),
        l.start_lexeme.consume_current_byte)
    else if l.start_lexeme.get_current_byte == 45 then
      (Except.ok (l.start_lexeme.consume_current_byte.get_current_token TokenKind.Minus),
        l.start_lexeme.consume_current_byte)
    else if l.start_lexeme.get_current_byte == 43 then
      (Except.ok (l.start_lexeme.consume_current_byte.get_current_token TokenKind.Plus),
        l.start_lexeme.consume_current_byte)
    else if l.start_lexeme.get_current_byte == 59 then
      (Except.ok (l.start_lexeme.consume_current_byte.get_current_token TokenKind.Semicolon),
        l.start_lexeme.consume_current_byte)
    else if l.start_lexeme.get_current_byte == 42 then
      (Except.ok (l.start_lexeme.consume_current_byte.get_current_token TokenKind.Star),
        l.start_lexeme.consume_current_byte)
    else if l.start_lexeme.get_current_byte == 33 then
      if l.start_lexeme.consume_current_byte.current_byte_available &&
          l.start_lexeme.consume_current_byte.get_current_byte == 61 then
        (Except.ok (l.start_lexeme.consume_current_byte.consume_current_byte.get_current_token
          TokenKind.BangEqual), l.start_lexeme.consume_current_byte.consume_current_byte)
      else
        (Except.ok (l.start_lexeme.consume_current_byte.get_current_token TokenKind.Bang),
          l.start_lexeme.consume_current_byte)
    else if l.start_lexeme.get_current_byte == 61 then
      if l.start_lexeme.consume_current_byte.current_byte_available &&
          l.start_lexeme.consume_current_byte.get_current_byte == 61 then
        (Except.ok (l.start_lexeme.consume_current_byte.consume_current_byte.get_current_token
          TokenKind.EqualEqual), l.start_lexeme.consume_current_byte.consume_current_byte)
      else
        (Except.ok (l.start_lexeme.consume_current_byte.get_current_token TokenKind.Equal),
          l.start_lexeme.consume_current_byte)
    else if l.start_lexeme.get_current_byte == 60 then
      if l.start_lexeme.consume_current_byte.current_byte_available &&
          l.start_lexeme.consume_current_byte.get_current_byte == 61 then
        (Except.ok (l.start_lexeme.consume_current_byte.consume_current_byte.get_current_token
          TokenKind.LessEqual), l.start_lexeme.consume_current_byte.consume_current_byte)
      else
        (Except.ok (l.start_lexeme.consume_current_byte.get_current_token TokenKind.Less),
          l.start_lexeme.consume_current_byte)
    else if l.start_lexeme.get_current_byte == 62 then
      if l.start_lexeme.consume_current_byte.current_byte_available &&
          l.start_lexeme.consume_current_byte.get_current_byte == 61 then
        (Except.ok (l.start_lexeme.consume_current_byte.consume_current_byte.get_current_token
          TokenKind.GreaterEqual), l.start_lexeme.consume_current_byte.consume_current_byte)
      else
        (Except.ok (l.start_lexeme.consume_current_byte.get_current_token TokenKind.Greater),
          l.start_lexeme.consume_current_byte)
    else if l.start_lexeme.get_current_byte == 47 then
      if l.start_lexeme.consume_current_byte.current_byte_available &&
          l.start_lexeme.consume_current_byte.get_current_byte == 47 then
        Lexer.next_token_aux n l.start_lexeme.consume_current_byte.consume_comment_line
      else
        (Except.ok (l.start_lexeme.consume_current_byte.get_current_token TokenKind.Slash),
          l.start_lexeme.consume_current_byte)
    else if l.start_lexeme.get_current_byte == 34 then
      match l.start_lexeme.consume_current_byte.consume_string_literal with
      | (l2, some e) => (Except.error e, l2)
      | (l2, none) =>
        (Except.ok ⟨TokenKind.String,
          (l2.source.drop (l2.lexeme_start + 1)).take
            (l2.lexeme_end - 1 - (l2.lexeme_start + 1)),
          l2.line_number⟩, l2)
    else if isAsciiDigit l.start_lexeme.get_current_byte then
      match l.start_lexeme.consume_current_byte.consume_number_literal with
      | (l2, some e) => (Except.error e, l2)
      | (l2, none) => (Except.ok (l2.get_current_token TokenKind.Number), l2)
    else if isAsciiAlphabetic l.start_lexeme.get_current_byte ||
        l.start_lexeme.get_current_byte == 95 then
      (Except.ok (l.start_lexeme.consume_current_byte.consume_identifier.get_current_token
        (TokenKind.parse_keyword
          l.start_lexeme.consume_current_byte.consume_identifier.get_current_lexeme)),
        l.start_lexeme.consume_current_byte.consume_identifier)
    else if isAsciiWhitespace l.start_lexeme.get_current_byte then
      Lexer.next_token_aux n
        (if l.start_lexeme.get_current_byte == 10 then
          l.start_lexeme.consume_current_byte.increment_line_number.consume_whitespace
        else l.start_lexeme.consume_current_byte.consume_whitespace)
    else
      (Except.error (l.start_lexeme.consume_current_byte.consume_unrecognized_lexeme.mkError
        (l.start_lexeme.consume_current_byte.consume_unrecognized_lexeme.get_current_token
          TokenKind.Unrecognized)
        LexerErrorKind.Unrecognized),
        l.start_lexeme.consume_current_byte.consume_unrecognized_lexeme)

/-- `Lexer::next_token`. -/
def Lexer.next_token (l : Lexer) : Except LexerError Token × Lexer :=
  Lexer.next_token_aux (l.source.length - l.lexeme_end + 1) l

/-- Body of `impl Iterator for Lexer`, iterated to exhaustion: `next`
returns `None` once `end_of_file_emitted` is set, otherwise yields the
`next_token` result.  The stream yields at most one item per consumed byte
plus the final `EndOfFile`, so fuel `source.length - lexeme_end + 1`
dominates its length. -/
def Lexer.items_aux : Nat → Lexer → List (Except LexerError Token)
  | 0, _ => []
  | n + 1, l =>
    if l.end_of_file_emitted then []
    else (l.next_token).1 :: Lexer.items_aux n (l.next_token).2

/-- The full sequence produced by iterating the `Lexer` (the materialized
`Iterator` items). -/
def Lexer.items (l : Lexer) : List (Except LexerError Token) :=
  Lexer.items_aux (l.source.length - l.lexeme_end + 1) l

deriving instance DecidableEq for Except

/-- `Expression` AST from `src/abstract_syntax_tree.rs`. -/
inductive Expression where
  | Binary (left_operand : Expression) (operator : Token) (right_operand : Expression)
  | Unary (operator : Token) (right_operand : Expression)
  | Grouping (inner : Expression)
  | Literal (token : Token)
deriving DecidableEq, Repr

/-- The `parenthesizes` helper of `impl Display for Expression`:
`'(' ++ name ++ (' ' ++ rendered operand)* ++ ')'` on bytes. -/
def parenthesizes (name : List Nat) (rendered : List (List Nat)) : List Nat :=
  [40] ++ name ++ (rendered.map (fun s => [32] ++ s)).flatten ++ [41]

/-- `impl Display for Expression`: the canonical parenthesized rendering,
producing the UTF-8 bytes of the output string. -/
def Expression.print : Expression → List Nat
  | Expression.Binary left_operand operator right_operand =>
      parenthesizes operator.lexeme [left_operand.print, right_operand.print]
  | Expression.Unary operator right_operand =>
      parenthesizes operator.lexeme [right_operand.print]
  | Expression.Grouping inner => parenthesizes (strBytes "group") [inner.print]
  | Expression.Literal token => token.lexeme

/-- `Parser` state from `src/parser.rs`: the materialized token list and
the cursor index. -/
structure Parser where
  tokens : List Token
  current_token_index : Nat
deriving DecidableEq, Repr

/-- `Parser::new`. -/
def Parser.new (tokens : List Token) : Parser :=
  ⟨tokens, 0⟩

/-- `Parser::peek_current_token` (`tokens[current_token_index]`; the Rust
index panics out of bounds, which cannot happen on an `EndOfFile`-terminated
token list; out of bounds we return a default `EndOfFile` token). -/
def Parser.peek_current_token (p : Parser) : Token :=
  p.tokens.getD p.current_token_index (Token.end_of_file 0)

/-- `Parser::peek_previous_token` (`tokens[current_token_index - 1]`). -/
def Parser.peek_previous_token (p : Parser) : Token :=
  p.tokens.getD (p.current_token_index - 1) (Token.end_of_file 0)

/-- `Parser::is_at_end`. -/
def Parser.is_at_end (p : Parser) : Bool :=
  p.peek_current_token.is_end_of_file

/-- `Parser::is_current_token`. -/
def Parser.is_current_token (p : Parser) (kind : TokenKind) : Bool :=
  !p.is_at_end && p.peek_current_token.kind == kind

/-- `Parser::consume_current_token` (never advances past `EndOfFile`). -/
def Parser.consume_current_token (p : Parser) : Parser :=
  if !p.is_at_end then { p with current_token_index := p.current_token_index + 1 }
  else p

/-- `Parser::consume_current_token_of_kind`: try each kind against the
current token, advancing (once) on the first success.  The Rust `for` loop
consumes on the first matching kind; since consuming does not depend on
which kind matched, this equals: advance iff some kind matches. -/
def Parser.consume_current_token_of_kind (p : Parser) (kinds : List TokenKind) :
    Bool × Parser :=
  if kinds.any (fun kind => p.is_current_token kind) then (true, p.consume_current_token)
  else (false, p)

/-- `ParseErrorKind` from `src/parser.rs`. -/
inductive ParseErrorKind where
  | MissingRightParenthesis
  | ExpectedExpression
  | UnaryExpressionMissingOperand
  | LexerError (e : LexerError)
deriving DecidableEq, Repr

/-- `ParseError` from `src/parser.rs`. -/
structure ParseError where
  kind : ParseErrorKind
  token : Token
deriving DecidableEq, Repr

/-!
The grammar rules of `src/parser.rs`.  Rust's recursion
(`expression_rule → equality_rule → … → primary_rule → expression_rule`,
plus each rule's greedy `while` fold) is modelled by structural recursion on
an explicit fuel argument, decremented at every nested rule call and fold
iteration; `none` is the (never-reached-with-enough-fuel) fuel-exhaustion
outcome, `some` carries the Rust `Result`.  Every nested call in the source
follows the consumption of at least one token, so fuel linear in the token
count suffices; the concrete theorems below use fuel 64.
-/

mutual

/-- `Parser::expression_rule`. -/
def Parser.expression_rule : Nat → Parser → Option (Except ParseError (Expression × Parser))
  | 0, _ => none
  | n + 1, p => Parser.equality_rule n p

/-- `Parser::equality_rule`. -/
def Parser.equality_rule : Nat → Parser → Option (Except ParseError (Expression × Parser))
  | 0, _ => none
  | n + 1, p =>
    match Parser.comparison_rule n p with
    | none => none
    | some (Except.error e) => some (Except.error e)
    | some (Except.ok (expression, p)) => Parser.equality_fold n expression p

/-- The `while consume_current_token_of_kind(EQUALITY_OPERATORS)` fold of
`Parser::equality_rule`. -/
def Parser.equality_fold : Nat → Expression → Parser → Option (Except ParseError (Expression × Parser))
  | 0, _, _ => none
  | n + 1, expression, p =>
    match p.consume_current_token_of_kind TokenKind.EQUALITY_OPERATORS with
    | (true, p1) =>
      match Parser.comparison_rule n p1 with
      | none => none
      | some (Except.error e) => some (Except.error e)
      | some (Except.ok (right_operand, p2)) =>
        Parser.equality_fold n
          (Expression.Binary expression p1.peek_previous_token right_operand) p2
    | (false, _) => some (Except.ok (expression, p))

/-- `Parser::comparison_rule`. -/
def Parser.comparison_rule : Nat → Parser → Option (Except ParseError (Expression × Parser))
  | 0, _ => none
  | n + 1, p =>
    match Parser.term_rule n p with
    | none => none
    | some (Except.error e) => some (Except.error e)
    | some (Except.ok (expression, p)) => Parser.comparison_fold n expression p

/-- The `while consume_current_token_of_kind(COMPARISON_OPERATORS)` fold of
`Parser::comparison_rule`. -/
def Parser.comparison_fold : Nat → Expression → Parser → Option (Except ParseError (Expression × Parser))
  | 0, _, _ => none
  | n + 1, expression, p =>
    match p.consume_current_token_of_kind TokenKind.COMPARISON_OPERATORS with
    | (true, p1) =>
      match Parser.term_rule n p1 with
      | none => none
      | some (Except.error e) => some (Except.error e)
      | some (Except.ok (right_operand, p2)) =>
        Parser.comparison_fold n
          (Expression.Binary expression p1.peek_previous_token right_operand) p2
    | (false, _) => some (Except.ok (expression, p))

/-- `Parser::term_rule`. -/
def Parser.term_rule : Nat → Parser → Option (Except ParseError (Expression × Parser))
  | 0, _ => none
  | n + 1, p =>
    match Parser.factor_rule n p with
    | none => none
    | some (Except.error e) => some (Except.error e)
    | some (Except.ok (expression, p)) => Parser.term_fold n expression p

/-- The `while consume_current_token_of_kind(TERM_OPERATORS)` fold of
`Parser::term_rule`. -/
def Parser.term_fold : Nat → Expression → Parser → Option (Except ParseError (Expression × Parser))
  | 0, _, _ => none
  | n + 1, expression, p =>
    match p.consume_current_token_of_kind TokenKind.TERM_OPERATORS with
    | (true, p1) =>
      match Parser.factor_rule n p1 with
      | none => none
      | some (Except.error e) => some (Except.error e)
      | some (Except.ok (right_operand, p2)) =>
        Parser.term_fold n
          (Expression.Binary expression p1.peek_previous_token right_operand) p2
    | (false, _) => some (Except.ok (expression, p))

/-- `Parser::factor_rule`. -/
def Parser.factor_rule : Nat → Parser → Option (Except ParseError (Expression × Parser))
  | 0, _ => none
  | n + 1, p =>
    match Parser.unary_rule n p with
    | none => none
    | some (Except.error e) => some (Except.error e)
    | some (Except.ok (expression, p)) => Parser.factor_fold n expression p

/-- The `while consume_current_token_of_kind(FACTOR_OPERATORS)` fold of
`Parser::factor_rule`. -/
def Parser.factor_fold : Nat → Expression → Parser → Option (Except ParseError (Expression × Parser))
  | 0, _, _ => none
  | n + 1, expression, p =>
    match p.consume_current_token_of_kind TokenKind.FACTOR_OPERATORS with
    | (true, p1) =>
      match Parser.unary_rule n p1 with
      | none => none
      | some (Except.error e) => some (Except.error e)
      | some (Except.ok (right_operand, p2)) =>
        Parser.factor_fold n
          (Expression.Binary expression p1.peek_previous_token right_operand) p2
    | (false, _) => some (Except.ok (expression, p))

/-- `Parser::unary_rule`. -/
def Parser.unary_rule : Nat → Parser → Option (Except ParseError (Expression × Parser))
  | 0, _ => none
  | n + 1, p =>
    match p.consume_current_token_of_kind TokenKind.UNARY_OPERATORS with
    | (true, p1) =>
      match Parser.unary_rule n p1 with
      | none => none
      | some (Except.error e) => some (Except.error e)
      | some (Except.ok (right_operand, p2)) =>
        some (Except.ok (Expression.Unary p1.peek_previous_token right_operand, p2))
    | (false, _) => Parser.primary_rule n p

/-- `Parser::primary_rule`. -/
def Parser.primary_rule : Nat → Parser → Option (Except ParseError (Expression × Parser))
  | 0, _ => none
  | n + 1, p =>
    match p.consume_current_token_of_kind [TokenKind.False] with
    | (true, p1) => some (Except.ok (Expression.Literal p1.peek_previous_token, p1))
    | (false, _) =>
    match p.consume_current_token_of_kind [TokenKind.True] with
    | (true, p1) => some (Except.ok (Expression.Literal p1.peek_previous_token, p1))
    | (false, _) =>
    match p.consume_current_token_of_kind [TokenKind.Nil] with
    | (true, p1) => some (Except.ok (Expression.Literal p1.peek_previous_token, p1))
    | (false, _) =>
    match p.consume_current_token_of_kind [TokenKind.Number, TokenKind.String] with
    | (true, p1) => some (Except.ok (Expression.Literal p1.peek_previous_token, p1))
    | (false, _) =>
    match p.consume_current_token_of_kind [TokenKind.LeftParentheses] with
    | (true, p1) =>
      match Parser.expression_rule n p1 with
      | none => none
      | some (Except.error e) => some (Except.error e)
      | some (Except.ok (expression, p2)) =>
        match p2.consume_current_token_of_kind [TokenKind.RightParentheses] with
        | (true, p3) => some (Except.ok (Expression.Grouping expression, p3))
        | (false, _) =>
          some (Except.error ⟨ParseErrorKind.MissingRightParenthesis, p2.peek_current_token⟩)
    | (false, _) =>
      some (Except.error ⟨ParseErrorKind.ExpectedExpression, p.peek_current_token⟩)

end

/-- `collect::<Result<Vec<_>, _>>()`: materialize the item stream, stopping
at the first error. -/
def collectExcept : List (Except LexerError Token) → Except LexerError (List Token)
  | [] => Except.ok []
  | Except.error e :: _ => Except.error e
  | Except.ok t :: rest =>
    match collectExcept rest with
    | Except.error e => Except.error e
    | Except.ok ts => Except.ok (t :: ts)

/-- `impl TryFrom<Lexer> for Parser` (with the lex error not yet wrapped
into `ParseErrorKind.LexerError`; the claims only use the success path). -/
def Parser.try_from (l : Lexer) : Except LexerError Parser :=
  match collectExcept l.items with
  | Except.error e => Except.error e
  | Except.ok tokens => Except.ok (Parser.new tokens)

/-- The token kind carried by a lexer stream item (the token itself for
`Ok`, the error's token for `Err`). -/
def itemTokenKind : Except LexerError Token → TokenKind
  | Except.ok t => t.kind
  | Except.error e => e.token.kind

/-- A `Number` token with the given text, as produced by lexing it on
line 1 (concrete test datum for the parser claims). -/
def numberToken (s : String) : Token :=
  ⟨TokenKind.Number, strBytes s, 1⟩

/-- An operator token of the given kind with an empty lexeme (the parser
dispatches on kinds only; concrete test datum). -/
def operatorToken (k : TokenKind) : Token :=
  ⟨k, [], 1⟩

/-- The token list produced by lexing `1 - 2 - 3`. -/
def tokens131 : List Token :=
  [⟨TokenKind.Number, strBytes "1", 1⟩, ⟨TokenKind.Minus, strBytes "-", 1⟩,
   ⟨TokenKind.Number, strBytes "2", 1⟩, ⟨TokenKind.Minus, strBytes "-", 1⟩,
   ⟨TokenKind.Number, strBytes "3", 1⟩, Token.end_of_file 1]

/-- The left-leaning parse tree of `1 - 2 - 3`. -/
def leftTree131 : Expression :=
  Expression.Binary
    (Expression.Binary (Expression.Literal ⟨TokenKind.Number, strBytes "1", 1⟩)
      ⟨TokenKind.Minus, strBytes "-", 1⟩
      (Expression.Literal ⟨TokenKind.Number, strBytes "2", 1⟩))
    ⟨TokenKind.Minus, strBytes "-", 1⟩
    (Expression.Literal ⟨TokenKind.Number, strBytes "3", 1⟩)

/-- The right-leaning alternative tree of `1 - 2 - 3` (what the parser must
never produce). -/
def rightTree131 : Expression :=
  Expression.Binary (Expression.Literal ⟨TokenKind.Number, strBytes "1", 1⟩)
    ⟨TokenKind.Minus, strBytes "-", 1⟩
    (Expression.Binary (Expression.Literal ⟨TokenKind.Number, strBytes "2", 1⟩)
      ⟨TokenKind.Minus, strBytes "-", 1⟩
      (Expression.Literal ⟨TokenKind.Number, strBytes "3", 1⟩))

/-- The token list produced by lexing `1 + 2 * 3`. -/
def tokens123 : List Token :=
  [⟨TokenKind.Number, strBytes "1", 1⟩, ⟨TokenKind.Plus, strBytes "+", 1⟩,
   ⟨TokenKind.Number, strBytes "2", 1⟩, ⟨TokenKind.Star, strBytes "*", 1⟩,
   ⟨TokenKind.Number, strBytes "3", 1⟩, Token.end_of_file 1]

/-- The precedence-respecting parse tree of `1 + 2 * 3`. -/
def tree123 : Expression :=
  Expression.Binary (Expression.Literal ⟨TokenKind.Number, strBytes "1", 1⟩)
    ⟨TokenKind.Plus, strBytes "+", 1⟩
    (Expression.Binary (Expression.Literal ⟨TokenKind.Number, strBytes "2", 1⟩)
      ⟨TokenKind.Star, strBytes "*", 1⟩
      (Expression.Literal ⟨TokenKind.Number, strBytes "3", 1⟩))

/-- The token list produced by lexing `(1 + 2` (no closing parenthesis). -/
def tokensC7 : List Token :=
  [⟨TokenKind.LeftParentheses, strBytes "(", 1⟩, ⟨TokenKind.Number, strBytes "1", 1⟩,
   ⟨TokenKind.Plus, strBytes "+", 1⟩, ⟨TokenKind.Number, strBytes "2", 1⟩,
   Token.end_of_file 1]

/-- The token list produced by lexing `-123 * (45.67)`. -/
def tokensC8 : List Token :=
  [⟨TokenKind.Minus, strBytes "-", 1⟩, ⟨TokenKind.Number, strBytes "123", 1⟩,
   ⟨TokenKind.Star, strBytes "*", 1⟩, ⟨TokenKind.LeftParentheses, strBytes "(", 1⟩,
   ⟨TokenKind.Number, strBytes "45.67", 1⟩, ⟨TokenKind.RightParentheses, strBytes ")", 1⟩,
   Token.end_of_file 1]

/-- The parse tree of `-123 * (45.67)`. -/
def treeC8 : Expression :=
  Expression.Binary
    (Expression.Unary ⟨TokenKind.Minus, strBytes "-", 1⟩
      (Expression.Literal ⟨TokenKind.Number, strBytes "123", 1⟩))
    ⟨TokenKind.Star, strBytes "*", 1⟩
    (Expression.Grouping (Expression.Literal ⟨TokenKind.Number, strBytes "45.67", 1⟩))

/-- The token list `[Number "1", Number "2", EndOfFile]`. -/
def tokensC10 : List Token :=
  [⟨TokenKind.Number, strBytes "1", 1⟩, ⟨TokenKind.Number, strBytes "2", 1⟩,
   Token.end_of_file 1]

/-! ### Basic state lemmas for the lexer's byte consumers -/

theorem consume_current_byte_source (l : Lexer) : l.consume_current_byte.source = l.source := rfl

theorem consume_current_byte_flag (l : Lexer) :
    l.consume_current_byte.end_of_file_emitted = l.end_of_file_emitted := rfl

theorem consume_current_byte_start (l : Lexer) :
    l.consume_current_byte.lexeme_start = l.lexeme_start := rfl

theorem consume_current_byte_end (l : Lexer) :
    l.consume_current_byte.lexeme_end = l.lexeme_end + 1 := rfl

/-- `consume_comment_line` preserves the source, the end-of-file flag and
`lexeme_start`, and only moves `lexeme_end` forward. -/
theorem consume_comment_line_aux_spec : ∀ (n : Nat) (l : Lexer),
    (Lexer.consume_comment_line_aux n l).source = l.source ∧
    (Lexer.consume_comment_line_aux n l).end_of_file_emitted = l.end_of_file_emitted ∧
    (Lexer.consume_comment_line_aux n l).lexeme_start = l.lexeme_start ∧
    l.lexeme_end ≤ (Lexer.consume_comment_line_aux n l).lexeme_end := by
  intro n
  induction n with
  | zero => intro l; simp [Lexer.consume_comment_line_aux]
  | succ n ih =>
    intro l
    simp only [Lexer.consume_comment_line_aux]
    split
    · obtain ⟨h1, h2, h3, h4⟩ := ih l.consume_current_byte
      rw [consume_current_byte_source] at h1
      rw [consume_current_byte_flag] at h2
      rw [consume_current_byte_start] at h3
      rw [consume_current_byte_end] at h4
      exact ⟨h1, h2, h3, by omega⟩
    · simp

/-- `consume_whitespace` preserves the source, the end-of-file flag and
`lexeme_start`, and only moves `lexeme_end` forward. -/
theorem consume_whitespace_aux_spec : ∀ (n : Nat) (l : Lexer),
    (Lexer.consume_whitespace_aux n l).source = l.source ∧
    (Lexer.consume_whitespace_aux n l).end_of_file_emitted = l.end_of_file_emitted ∧
    (Lexer.consume_whitespace_aux n l).lexeme_start = l.lexeme_start ∧
    l.lexeme_end ≤ (Lexer.consume_whitespace_aux n l).lexeme_end := by
  intro n
  induction n with
  | zero => intro l; simp [Lexer.consume_whitespace_aux]
  | succ n ih =>
    intro l
    simp only [Lexer.consume_whitespace_aux]
    split
    · obtain ⟨h1, h2, h3, h4⟩ := ih
        (if l.get_current_byte == 10 then l.increment_line_number.consume_current_byte
        else l.consume_current_byte)
      have hs : (if l.get_current_byte == 10 then l.increment_line_number.consume_current_byte
        else l.consume_current_byte).source = l.source := by split <;> rfl
      have hf : (if l.get_current_byte == 10 then l.increment_line_number.consume_current_byte
        else l.consume_current_byte).end_of_file_emitted = l.end_of_file_emitted := by
        split <;> rfl
      have hst : (if l.get_current_byte == 10 then l.increment_line_number.consume_current_byte
        else l.consume_current_byte).lexeme_start = l.lexeme_start := by split <;> rfl
      have he : (if l.get_current_byte == 10 then l.increment_line_number.consume_current_byte
        else l.consume_current_byte).lexeme_end = l.lexeme_end + 1 := by split <;> rfl
      rw [hs] at h1
      rw [hf] at h2
      rw [hst] at h3
      rw [he] at h4
      exact ⟨h1, h2, h3, by omega⟩
    · simp

/-- The digit-run loop preserves the source, the end-of-file flag and
`lexeme_start`, and only moves `lexeme_end` forward. -/
theorem consume_digits_aux_spec : ∀ (n : Nat) (l : Lexer),
    (Lexer.consume_digits_aux n l).source = l.source ∧
    (Lexer.consume_digits_aux n l).end_of_file_emitted = l.end_of_file_emitted ∧
    (Lexer.consume_digits_aux n l).lexeme_start = l.lexeme_start ∧
    l.lexeme_end ≤ (Lexer.consume_digits_aux n l).lexeme_end := by
  intro n
  induction n with
  | zero => intro l; simp [Lexer.consume_digits_aux]
  | succ n ih =>
    intro l
    simp only [Lexer.consume_digits_aux]
    split
    · obtain ⟨h1, h2, h3, h4⟩ := ih l.consume_current_byte
      rw [consume_current_byte_source] at h1
      rw [consume_current_byte_flag] at h2
      rw [consume_current_byte_start] at h3
      rw [consume_current_byte_end] at h4
      exact ⟨h1, h2, h3, by omega⟩
    · simp

/-- `consume_identifier` preserves the source, the end-of-file flag and
`lexeme_start`, and only moves `lexeme_end` forward. -/
theorem consume_identifier_aux_spec : ∀ (n : Nat) (l : Lexer),
    (Lexer.consume_identifier_aux n l).source = l.source ∧
    (Lexer.consume_identifier_aux n l).end_of_file_emitted = l.end_of_file_emitted ∧
    (Lexer.consume_identifier_aux n l).lexeme_start = l.lexeme_start ∧
    l.lexeme_end ≤ (Lexer.consume_identifier_aux n l).lexeme_end := by
  intro n
  induction n with
  | zero => intro l; simp [Lexer.consume_identifier_aux]
  | succ n ih =>
    intro l
    simp only [Lexer.consume_identifier_aux]
    split
    · obtain ⟨h1, h2, h3, h4⟩ := ih l.consume_current_byte
      rw [consume_current_byte_source] at h1
      rw [consume_current_byte_flag] at h2
      rw [consume_current_byte_start] at h3
      rw [consume_current_byte_end] at h4
      exact ⟨h1, h2, h3, by omega⟩
    · simp

/-- `consume_unrecognized_lexeme` preserves the source, the end-of-file
flag and `lexeme_start`, and only moves `lexeme_end` forward. -/
theorem consume_unrecognized_lexeme_aux_spec : ∀ (n : Nat) (l : Lexer),
    (Lexer.consume_unrecognized_lexeme_aux n l).source = l.source ∧
    (Lexer.consume_unrecognized_lexeme_aux n l).end_of_file_emitted = l.end_of_file_emitted ∧
    (Lexer.consume_unrecognized_lexeme_aux n l).lexeme_start = l.lexeme_start ∧
    l.lexeme_end ≤ (Lexer.consume_unrecognized_lexeme_aux n l).lexeme_end := by
  intro n
  induction n with
  | zero => intro l; simp [Lexer.consume_unrecognized_lexeme_aux]
  | succ n ih =>
    intro l
    simp only [Lexer.consume_unrecognized_lexeme_aux]
    split
    · obtain ⟨h1, h2, h3, h4⟩ := ih l.consume_current_byte
      rw [consume_current_byte_source] at h1
      rw [consume_current_byte_flag] at h2
      rw [consume_current_byte_start] at h3
      rw [consume_current_byte_end] at h4
      exact ⟨h1, h2, h3, by omega⟩
    · simp

/-- The string-literal loop preserves the source, the end-of-file flag and
`lexeme_start`, only moves `lexeme_end` forward, and any error it reports is
`UnterminatedStringLiteral` built from its own final state. -/
theorem consume_string_literal_aux_spec : ∀ (n : Nat) (l : Lexer),
    ((Lexer.consume_string_literal_aux n l).1.source = l.source ∧
     (Lexer.consume_string_literal_aux n l).1.end_of_file_emitted = l.end_of_file_emitted ∧
     (Lexer.consume_string_literal_aux n l).1.lexeme_start = l.lexeme_start ∧
     l.lexeme_end ≤ (Lexer.consume_string_literal_aux n l).1.lexeme_end) ∧
    (∀ e, (Lexer.consume_string_literal_aux n l).2 = some e →
      e = (Lexer.consume_string_literal_aux n l).1.mkError
        ((Lexer.consume_string_literal_aux n l).1.get_current_token TokenKind.String)
        LexerErrorKind.UnterminatedStringLiteral) := by
  intro n
  induction n with
  | zero =>
    intro l
    refine ⟨⟨rfl, rfl, rfl, Nat.le_refl _⟩, ?_⟩
    intro e he
    simpa [Lexer.consume_string_literal_aux] using he.symm
  | succ n ih =>
    intro l
    simp only [Lexer.consume_string_literal_aux]
    split
    · split
      · exact ⟨⟨rfl, rfl, rfl, Nat.le_succ _⟩, by intro e he; simp at he⟩
      · obtain ⟨⟨h1, h2, h3, h4⟩, herr⟩ := ih l.consume_current_byte
        rw [consume_current_byte_source] at h1
        rw [consume_current_byte_flag] at h2
        rw [consume_current_byte_start] at h3
        rw [consume_current_byte_end] at h4
        exact ⟨⟨h1, h2, h3, by omega⟩, herr⟩
    · refine ⟨⟨rfl, rfl, rfl, Nat.le_refl _⟩, ?_⟩
      intro e he
      simpa using he.symm


/-- Wrapper-level corollary of `consume_comment_line_aux_spec`. -/
theorem consume_comment_line_spec (l : Lexer) :
    (l.consume_comment_line).source = l.source ∧
    (l.consume_comment_line).end_of_file_emitted = l.end_of_file_emitted ∧
    (l.consume_comment_line).lexeme_start = l.lexeme_start ∧
    l.lexeme_end ≤ (l.consume_comment_line).lexeme_end :=
  consume_comment_line_aux_spec (l.source.length - l.lexeme_end) l

/-- Wrapper-level corollary of `consume_whitespace_aux_spec`. -/
theorem consume_whitespace_spec (l : Lexer) :
    (l.consume_whitespace).source = l.source ∧
    (l.consume_whitespace).end_of_file_emitted = l.end_of_file_emitted ∧
    (l.consume_whitespace).lexeme_start = l.lexeme_start ∧
    l.lexeme_end ≤ (l.consume_whitespace).lexeme_end :=
  consume_whitespace_aux_spec (l.source.length - l.lexeme_end) l

/-- Wrapper-level corollary of `consume_digits_aux_spec`. -/
theorem consume_digits_spec (l : Lexer) :
    (l.consume_digits).source = l.source ∧
    (l.consume_digits).end_of_file_emitted = l.end_of_file_emitted ∧
    (l.consume_digits).lexeme_start = l.lexeme_start ∧
    l.lexeme_end ≤ (l.consume_digits).lexeme_end :=
  consume_digits_aux_spec (l.source.length - l.lexeme_end) l

/-- Wrapper-level corollary of `consume_identifier_aux_spec`. -/
theorem consume_identifier_spec (l : Lexer) :
    (l.consume_identifier).source = l.source ∧
    (l.consume_identifier).end_of_file_emitted = l.end_of_file_emitted ∧
    (l.consume_identifier).lexeme_start = l.lexeme_start ∧
    l.lexeme_end ≤ (l.consume_identifier).lexeme_end :=
  consume_identifier_aux_spec (l.source.length - l.lexeme_end) l

/-- Wrapper-level corollary of `consume_unrecognized_lexeme_aux_spec`. -/
theorem consume_unrecognized_lexeme_spec (l : Lexer) :
    (l.consume_unrecognized_lexeme).source = l.source ∧
    (l.consume_unrecognized_lexeme).end_of_file_emitted = l.end_of_file_emitted ∧
    (l.consume_unrecognized_lexeme).lexeme_start = l.lexeme_start ∧
    l.lexeme_end ≤ (l.consume_unrecognized_lexeme).lexeme_end :=
  consume_unrecognized_lexeme_aux_spec (l.source.length - l.lexeme_end) l

/-- Wrapper-level corollary of `consume_string_literal_aux_spec`. -/
theorem consume_string_literal_spec (l : Lexer) :
    ((l.consume_string_literal).1.source = l.source ∧
     (l.consume_string_literal).1.end_of_file_emitted = l.end_of_file_emitted ∧
     (l.consume_string_literal).1.lexeme_start = l.lexeme_start ∧
     l.lexeme_end ≤ (l.consume_string_literal).1.lexeme_end) ∧
    (∀ e, (l.consume_string_literal).2 = some e →
      e = (l.consume_string_literal).1.mkError
        ((l.consume_string_literal).1.get_current_token TokenKind.String)
        LexerErrorKind.UnterminatedStringLiteral) :=
  consume_string_literal_aux_spec (l.source.length - l.lexeme_end) l

/-- `consume_number_literal` preserves the source, the end-of-file flag and
`lexeme_start`, only moves `lexeme_end` forward, and any error it reports is
`NumberTrailingDot` built from its own final state. -/
theorem consume_number_literal_spec (l : Lexer) :
    ((l.consume_number_literal).1.source = l.source ∧
     (l.consume_number_literal).1.end_of_file_emitted = l.end_of_file_emitted ∧
     (l.consume_number_literal).1.lexeme_start = l.lexeme_start ∧
     l.lexeme_end ≤ (l.consume_number_literal).1.lexeme_end) ∧
    (∀ e, (l.consume_number_literal).2 = some e →
      e = (l.consume_number_literal).1.mkError
        ((l.consume_number_literal).1.get_current_token TokenKind.Number)
        LexerErrorKind.NumberTrailingDot) := by
  obtain ⟨d1, d2, d3, d4⟩ := consume_digits_spec l
  simp only [Lexer.consume_number_literal]
  split
  · exact ⟨⟨d1, d2, d3, d4⟩, by intro e he; simp at he⟩
  · split
    · split
      · refine ⟨⟨d1, d2, d3, d4⟩, ?_⟩
        intro e he
        simpa using he.symm
      · obtain ⟨e1, e2, e3, e4⟩ := consume_digits_spec l.consume_digits.consume_current_byte
        rw [consume_current_byte_source] at e1
        rw [consume_current_byte_flag] at e2
        rw [consume_current_byte_start] at e3
        rw [consume_current_byte_end] at e4
        refine ⟨⟨by rw [e1, d1], by rw [e2, d2], by rw [e3, d3], ?_⟩, ?_⟩
        · show l.lexeme_end ≤ l.consume_digits.consume_current_byte.consume_digits.lexeme_end
          omega
        · intro e he
          simp at he
    · exact ⟨⟨d1, d2, d3, d4⟩, by intro e he; simp at he⟩


/-- The keyword table never yields the `EndOfFile` kind. -/
theorem parse_keyword_ne_end_of_file (s : List Nat) :
    TokenKind.parse_keyword s ≠ TokenKind.EndOfFile := by
  intro h
  rw [TokenKind.parse_keyword.eq_def] at h
  by_cases h1 : s = [97, 110, 100]
  · rw [if_pos h1] at h
    exact TokenKind.noConfusion h
  rw [if_neg h1] at h
  by_cases h2 : s = [99, 108, 97, 115, 115]
  · rw [if_pos h2] at h
    exact TokenKind.noConfusion h
  rw [if_neg h2] at h
  by_cases h3 : s = [101, 108, 115, 101]
  · rw [if_pos h3] at h
    exact TokenKind.noConfusion h
  rw [if_neg h3] at h
  by_cases h4 : s = [102, 97, 108, 115, 101]
  · rw [if_pos h4] at h
    exact TokenKind.noConfusion h
  rw [if_neg h4] at h
  by_cases h5 : s = [102, 111, 114]
  · rw [if_pos h5] at h
    exact TokenKind.noConfusion h
  rw [if_neg h5] at h
  by_cases h6 : s = [102, 117, 110]
  · rw [if_pos h6] at h
    exact TokenKind.noConfusion h
  rw [if_neg h6] at h
  by_cases h7 : s = [105, 102]
  · rw [if_pos h7] at h
    exact TokenKind.noConfusion h
  rw [if_neg h7] at h
  by_cases h8 : s = [110, 105, 108]
  · rw [if_pos h8] at h
    exact TokenKind.noConfusion h
  rw [if_neg h8] at h
  by_cases h9 : s = [111, 114]
  · rw [if_pos h9] at h
    exact TokenKind.noConfusion h
  rw [if_neg h9] at h
  by_cases h10 : s = [112, 114, 105, 110, 116]
  · rw [if_pos h10] at h
    exact TokenKind.noConfusion h
  rw [if_neg h10] at h
  by_cases h11 : s = [114, 101, 116, 117, 114, 110]
  · rw [if_pos h11] at h
    exact TokenKind.noConfusion h
  rw [if_neg h11] at h
  by_cases h12 : s = [115, 117, 112, 101, 114]
  · rw [if_pos h12] at h
    exact TokenKind.noConfusion h
  rw [if_neg h12] at h
  by_cases h13 : s = [116, 104, 105, 115]
  · rw [if_pos h13] at h
    exact TokenKind.noConfusion h
  rw [if_neg h13] at h
  by_cases h14 : s = [116, 114, 117, 101]
  · rw [if_pos h14] at h
    exact TokenKind.noConfusion h
  rw [if_neg h14] at h
  by_cases h15 : s = [118, 97, 114]
  · rw [if_pos h15] at h
    exact TokenKind.noConfusion h
  rw [if_neg h15] at h
  by_cases h16 : s = [119, 104, 105, 108, 101]
  · rw [if_pos h16] at h
    exact TokenKind.noConfusion h
  rw [if_neg h16] at h
  exact TokenKind.noConfusion h

/-- Core characterization of one `next_token` step (on the fuelled body,
for sufficient fuel): the source is preserved; an error's token carries
exactly the consumed lexeme `[lexeme_start, lexeme_end)` of the returned
state (scanning resumes at its end) and never has kind `EndOfFile`; and
either the end-of-file token was emitted (flag set), or the flag is
unchanged, at least one byte was consumed, and the yielded token is not
`EndOfFile`. -/
theorem next_token_aux_spec : ∀ (n : Nat) (l : Lexer),
    l.source.length - l.lexeme_end < n →
    (Lexer.next_token_aux n l).2.source = l.source ∧
    (∀ e, (Lexer.next_token_aux n l).1 = Except.error e →
      e.token.lexeme = (Lexer.next_token_aux n l).2.get_current_lexeme ∧
      e.token.kind ≠ TokenKind.EndOfFile) ∧
    (((Lexer.next_token_aux n l).2.end_of_file_emitted = true ∧
      (Lexer.next_token_aux n l).1 =
        Except.ok (Token.end_of_file (Lexer.next_token_aux n l).2.line_number)) ∨
     ((Lexer.next_token_aux n l).2.end_of_file_emitted = l.end_of_file_emitted ∧
      l.lexeme_end < (Lexer.next_token_aux n l).2.lexeme_end ∧
      l.lexeme_end < l.source.length ∧
      (∀ t, (Lexer.next_token_aux n l).1 = Except.ok t → t.kind ≠ TokenKind.EndOfFile))) := by
  intro n
  induction n with
  | zero => intro l h; exact absurd h (Nat.not_lt_zero _)
  | succ n ih =>
    intro l h
    by_cases hav : l.current_byte_available
    case neg =>
      have hb : (!l.current_byte_available) = true := by simp [hav]
      have hstep : Lexer.next_token_aux (n + 1) l =
          (Except.ok (Token.end_of_file l.line_number), { l with end_of_file_emitted := true }) := by
        simp only [Lexer.next_token_aux]
        rw [if_pos hb]
      rw [hstep]
      dsimp only
      refine ⟨rfl, ?_, Or.inl ⟨rfl, rfl⟩⟩
      intro e he
      simp at he
    case pos =>
      have hb : ¬(!l.current_byte_available) = true := by simp [hav]
      have havn : l.lexeme_end < l.source.length := by
        simpa [Lexer.current_byte_available] using hav
      have hend1 : (l.start_lexeme.consume_current_byte).lexeme_end = l.lexeme_end + 1 := rfl
      have hend2 : (l.start_lexeme.consume_current_byte).consume_current_byte.lexeme_end = l.lexeme_end + 1 + 1 := rfl
      by_cases hc1 : l.start_lexeme.get_current_byte == 40
      case pos =>
        have hstep : Lexer.next_token_aux (n + 1) l =
            (Except.ok (l.start_lexeme.consume_current_byte.get_current_token TokenKind.LeftParentheses), l.start_lexeme.consume_current_byte) := by
          simp only [Lexer.next_token_aux]
          rw [if_neg hb, if_pos hc1]
        rw [hstep]
        dsimp only
        refine ⟨rfl, ?_, Or.inr ⟨rfl, ?_, havn, ?_⟩⟩
        · intro e he
          simp at he
        · rw [hend1]; omega
        · intro t ht
          injection ht with ht1
          rw [← ht1]
          simp [Lexer.get_current_token]
      case neg =>
      by_cases hc2 : l.start_lexeme.get_current_byte == 41
      case pos =>
        have hstep : Lexer.next_token_aux (n + 1) l =
            (Except.ok (l.start_lexeme.consume_current_byte.get_current_token TokenKind.RightParentheses), l.start_lexeme.consume_current_byte) := by
          simp only [Lexer.next_token_aux]
          rw [if_neg hb, if_neg hc1, if_pos hc2]
        rw [hstep]
        dsimp only
        refine ⟨rfl, ?_, Or.inr ⟨rfl, ?_, havn, ?_⟩⟩
        · intro e he
          simp at he
        · rw [hend1]; omega
        · intro t ht
          injection ht with ht1
          rw [← ht1]
          simp [Lexer.get_current_token]
      case neg =>
      by_cases hc3 : l.start_lexeme.get_current_byte == 123
      case pos =>
        have hstep : Lexer.next_token_aux (n + 1) l =
            (Except.ok (l.start_lexeme.consume_current_byte.get_current_token TokenKind.LeftBrace), l.start_lexeme.consume_current_byte) := by
          simp only [Lexer.next_token_aux]
          rw [if_neg hb, if_neg hc1, if_neg hc2, if_pos hc3]
        rw [hstep]
        dsimp only
        refine ⟨rfl, ?_, Or.inr ⟨rfl, ?_, havn, ?_⟩⟩
        · intro e he
          simp at he
        · rw [hend1]; omega
        · intro t ht
          injection ht with ht1
          rw [← ht1]
          simp [Lexer.get_current_token]
      case neg =>
      by_cases hc4 : l.start_lexeme.get_current_byte == 125
      case pos =>
        have hstep : Lexer.next_token_aux (n + 1) l =
            (Except.ok (l.start_lexeme.consume_current_byte.get_current_token TokenKind.RightBrace), l.start_lexeme.consume_current_byte) := by
          simp only [Lexer.next_token_aux]
          rw [if_neg hb, if_neg hc1, if_neg hc2, if_neg hc3, if_pos hc4]
        rw [hstep]
        dsimp only
        refine ⟨rfl, ?_, Or.inr ⟨rfl, ?_, havn, ?_⟩⟩
        · intro e he
          simp at he
        · rw [hend1]; omega
        · intro t ht
          injection ht with ht1
          rw [← ht1]
          simp [Lexer.get_current_token]
      case neg =>
      by_cases hc5 : l.start_lexeme.get_current_byte == 44
      case pos =>
        have hstep : Lexer.next_token_aux (n + 1) l =
            (Except.ok (l.start_lexeme.consume_current_byte.get_current_token TokenKind.Comma), l.start_lexeme.consume_current_byte) := by
          simp only [Lexer.next_token_aux]
          rw [if_neg hb, if_neg hc1, if_neg hc2, if_neg hc3, if_neg hc4, if_pos hc5]
        rw [hstep]
        dsimp only
        refine ⟨rfl, ?_, Or.inr ⟨rfl, ?_, havn, ?_⟩⟩
        · intro e he
          simp at he
        · rw [hend1]; omega
        · intro t ht
          injection ht with ht1
          rw [← ht1]
          simp [Lexer.get_current_token]
      case neg =>
      by_cases hc6 : l.start_lexeme.get_current_byte == 46
      case pos =>
        have hstep : Lexer.next_token_aux (n + 1) l =
            (Except.ok (l.start_lexeme.consume_current_byte.get_current_token TokenKind.Dot), l.start_lexeme.consume_current_byte) := by
          simp only [Lexer.next_token_aux]
          rw [if_neg hb, if_neg hc1, if_neg hc2, if_neg hc3, if_neg hc4, if_neg hc5, if_pos hc6]
        rw [hstep]
        dsimp only
        refine ⟨rfl, ?_, Or.inr ⟨rfl, ?_, havn, ?_⟩⟩
        · intro e he
          simp at he
        · rw [hend1]; omega
        · intro t ht
          injection ht with ht1
          rw [← ht1]
          simp [Lexer.get_current_token]
      case neg =>
      by_cases hc7 : l.start_lexeme.get_current_byte == 45
      case pos =>
        have hstep : Lexer.next_token_aux (n + 1) l =
            (Except.ok (l.start_lexeme.consume_current_byte.get_current_token TokenKind.Minus), l.start_lexeme.consume_current_byte) := by
          simp only [Lexer.next_token_aux]
          rw [if_neg hb, if_neg hc1, if_neg hc2, if_neg hc3, if_neg hc4, if_neg hc5, if_neg hc6, if_pos hc7]
        rw [hstep]
        dsimp only
        refine ⟨rfl, ?_, Or.inr ⟨rfl, ?_, havn, ?_⟩⟩
        · intro e he
          simp at he
        · rw [hend1]; omega
        · intro t ht
          injection ht with ht1
          rw [← ht1]
          simp [Lexer.get_current_token]
      case neg =>
      by_cases hc8 : l.start_lexeme.get_current_byte == 43
      case pos =>
        have hstep : Lexer.next_token_aux (n + 1) l =
            (Except.ok (l.start_lexeme.consume_current_byte.get_current_token TokenKind.Plus), l.start_lexeme.consume_current_byte) := by
          simp only [Lexer.next_token_aux]
          rw [if_neg hb, if_neg hc1, if_neg hc2, if_neg hc3, if_neg hc4, if_neg hc5, if_neg hc6, if_neg hc7, if_pos hc8]
        rw [hstep]
        dsimp only
        refine ⟨rfl, ?_, Or.inr ⟨rfl, ?_, havn, ?_⟩⟩
        · intro e he
          simp at he
        · rw [hend1]; omega
        · intro t ht
          injection ht with ht1
          rw [← ht1]
          simp [Lexer.get_current_token]
      case neg =>
      by_cases hc9 : l.start_lexeme.get_current_byte == 59
      case pos =>
        have hstep : Lexer.next_token_aux (n + 1) l =
            (Except.ok (l.start_lexeme.consume_current_byte.get_current_token TokenKind.Semicolon), l.start_lexeme.consume_current_byte) := by
          simp only [Lexer.next_token_aux]
          rw [if_neg hb, if_neg hc1, if_neg hc2, if_neg hc3, if_neg hc4, if_neg hc5, if_neg hc6, if_neg hc7, if_neg hc8, if_pos hc9]
        rw [hstep]
        dsimp only
        refine ⟨rfl, ?_, Or.inr ⟨rfl, ?_, havn, ?_⟩⟩
        · intro e he
          simp at he
        · rw [hend1]; omega
        · intro t ht
          injection ht with ht1
          rw [← ht1]
          simp [Lexer.get_current_token]
      case neg =>
      by_cases hc10 : l.start_lexeme.get_current_byte == 42
      case pos =>
        have hstep : Lexer.next_token_aux (n + 1) l =
            (Except.ok (l.start_lexeme.consume_current_byte.get_current_token TokenKind.Star), l.start_lexeme.consume_current_byte) := by
          simp only [Lexer.next_token_aux]
          rw [if_neg hb, if_neg hc1, if_neg hc2, if_neg hc3, if_neg hc4, if_neg hc5, if_neg hc6, if_neg hc7, if_neg hc8, if_neg hc9, if_pos hc10]
        rw [hstep]
        dsimp only
        refine ⟨rfl, ?_, Or.inr ⟨rfl, ?_, havn, ?_⟩⟩
        · intro e he
          simp at he
        · rw [hend1]; omega
        · intro t ht
          injection ht with ht1
          rw [← ht1]
          simp [Lexer.get_current_token]
      case neg =>
      by_cases hc11 : l.start_lexeme.get_current_byte == 33
      case pos =>
        by_cases hi11 : l.start_lexeme.consume_current_byte.current_byte_available && l.start_lexeme.consume_current_byte.get_current_byte == 61
        case pos =>
          have hstep : Lexer.next_token_aux (n + 1) l =
              (Except.ok (l.start_lexeme.consume_current_byte.consume_current_byte.get_current_token TokenKind.BangEqual),
                l.start_lexeme.consume_current_byte.consume_current_byte) := by
            simp only [Lexer.next_token_aux]
            rw [if_neg hb, if_neg hc1, if_neg hc2, if_neg hc3, if_neg hc4, if_neg hc5, if_neg hc6, if_neg hc7, if_neg hc8, if_neg hc9, if_neg hc10, if_pos hc11, if_pos hi11]
          rw [hstep]
          dsimp only
          refine ⟨rfl, ?_, Or.inr ⟨rfl, ?_, havn, ?_⟩⟩
          · intro e he
            simp at he
          · rw [hend2]; omega
          · intro t ht
            injection ht with ht1
            rw [← ht1]
            simp [Lexer.get_current_token]
        case neg =>
          have hstep : Lexer.next_token_aux (n + 1) l =
              (Except.ok (l.start_lexeme.consume_current_byte.get_current_token TokenKind.Bang), l.start_lexeme.consume_current_byte) := by
            simp only [Lexer.next_token_aux]
            rw [if_neg hb, if_neg hc1, if_neg hc2, if_neg hc3, if_neg hc4, if_neg hc5, if_neg hc6, if_neg hc7, if_neg hc8, if_neg hc9, if_neg hc10, if_pos hc11, if_neg hi11]
          rw [hstep]
          dsimp only
          refine ⟨rfl, ?_, Or.inr ⟨rfl, ?_, havn, ?_⟩⟩
          · intro e he
            simp at he
          · rw [hend1]; omega
          · intro t ht
            injection ht with ht1
            rw [← ht1]
            simp [Lexer.get_current_token]
      case neg =>
      by_cases hc12 : l.start_lexeme.get_current_byte == 61
      case pos =>
        by_cases hi12 : l.start_lexeme.consume_current_byte.current_byte_available && l.start_lexeme.consume_current_byte.get_current_byte == 61
        case pos =>
          have hstep : Lexer.next_token_aux (n + 1) l =
              (Except.ok (l.start_lexeme.consume_current_byte.consume_current_byte.get_current_token TokenKind.EqualEqual),
                l.start_lexeme.consume_current_byte.consume_current_byte) := by
            simp only [Lexer.next_token_aux]
            rw [if_neg hb, if_neg hc1, if_neg hc2, if_neg hc3, if_neg hc4, if_neg hc5, if_neg hc6, if_neg hc7, if_neg hc8, if_neg hc9, if_neg hc10, if_neg hc11, if_pos hc12, if_pos hi12]
          rw [hstep]
          dsimp only
          refine ⟨rfl, ?_, Or.inr ⟨rfl, ?_, havn, ?_⟩⟩
          · intro e he
            simp at he
          · rw [hend2]; omega
          · intro t ht
            injection ht with ht1
            rw [← ht1]
            simp [Lexer.get_current_token]
        case neg =>
          have hstep : Lexer.next_token_aux (n + 1) l =
              (Except.ok (l.start_lexeme.consume_current_byte.get_current_token TokenKind.Equal), l.start_lexeme.consume_current_byte) := by
            simp only [Lexer.next_token_aux]
            rw [if_neg hb, if_neg hc1, if_neg hc2, if_neg hc3, if_neg hc4, if_neg hc5, if_neg hc6, if_neg hc7, if_neg hc8, if_neg hc9, if_neg hc10, if_neg hc11, if_pos hc12, if_neg hi12]
          rw [hstep]
          dsimp only
          refine ⟨rfl, ?_, Or.inr ⟨rfl, ?_, havn, ?_⟩⟩
          · intro e he
            simp at he
          · rw [hend1]; omega
          · intro t ht
            injection ht with ht1
            rw [← ht1]
            simp [Lexer.get_current_token]
      case neg =>
      by_cases hc13 : l.start_lexeme.get_current_byte == 60
      case pos =>
        by_cases hi13 : l.start_lexeme.consume_current_byte.current_byte_available && l.start_lexeme.consume_current_byte.get_current_byte == 61
        case pos =>
          have hstep : Lexer.next_token_aux (n + 1) l =
              (Except.ok (l.start_lexeme.consume_current_byte.consume_current_byte.get_current_token TokenKind.LessEqual),
                l.start_lexeme.consume_current_byte.consume_current_byte) := by
            simp only [Lexer.next_token_aux]
            rw [if_neg hb, if_neg hc1, if_neg hc2, if_neg hc3, if_neg hc4, if_neg hc5, if_neg hc6, if_neg hc7, if_neg hc8, if_neg hc9, if_neg hc10, if_neg hc11, if_neg hc12, if_pos hc13, if_pos hi13]
          rw [hstep]
          dsimp only
          refine ⟨rfl, ?_, Or.inr ⟨rfl, ?_, havn, ?_⟩⟩
          · intro e he
            simp at he
          · rw [hend2]; omega
          · intro t ht
            injection ht with ht1
            rw [← ht1]
            simp [Lexer.get_current_token]
        case neg =>
          have hstep : Lexer.next_token_aux (n + 1) l =
              (Except.ok (l.start_lexeme.consume_current_byte.get_current_token TokenKind.Less), l.start_lexeme.consume_current_byte) := by
            simp only [Lexer.next_token_aux]
            rw [if_neg hb, if_neg hc1, if_neg hc2, if_neg hc3, if_neg hc4, if_neg hc5, if_neg hc6, if_neg hc7, if_neg hc8, if_neg hc9, if_neg hc10, if_neg hc11, if_neg hc12, if_pos hc13, if_neg hi13]
          rw [hstep]
          dsimp only
          refine ⟨rfl, ?_, Or.inr ⟨rfl, ?_, havn, ?_⟩⟩
          · intro e he
            simp at he
          · rw [hend1]; omega
          · intro t ht
            injection ht with ht1
            rw [← ht1]
            simp [Lexer.get_current_token]
      case neg =>
      by_cases hc14 : l.start_lexeme.get_current_byte == 62
      case pos =>
        by_cases hi14 : l.start_lexeme.consume_current_byte.current_byte_available && l.start_lexeme.consume_current_byte.get_current_byte == 61
        case pos =>
          have hstep : Lexer.next_token_aux (n + 1) l =
              (Except.ok (l.start_lexeme.consume_current_byte.consume_current_byte.get_current_token TokenKind.GreaterEqual),
                l.start_lexeme.consume_current_byte.consume_current_byte) := by
            simp only [Lexer.next_token_aux]
            rw [if_neg hb, if_neg hc1, if_neg hc2, if_neg hc3, if_neg hc4, if_neg hc5, if_neg hc6, if_neg hc7, if_neg hc8, if_neg hc9, if_neg hc10, if_neg hc11, if_neg hc12, if_neg hc13, if_pos hc14, if_pos hi14]
          rw [hstep]
          dsimp only
          refine ⟨rfl, ?_, Or.inr ⟨rfl, ?_, havn, ?_⟩⟩
          · intro e he
            simp at he
          · rw [hend2]; omega
          · intro t ht
            injection ht with ht1
            rw [← ht1]
            simp [Lexer.get_current_token]
        case neg =>
          have hstep : Lexer.next_token_aux (n + 1) l =
              (Except.ok (l.start_lexeme.consume_current_byte.get_current_token TokenKind.Greater), l.start_lexeme.consume_current_byte) := by
            simp only [Lexer.next_token_aux]
            rw [if_neg hb, if_neg hc1, if_neg hc2, if_neg hc3, if_neg hc4, if_neg hc5, if_neg hc6, if_neg hc7, if_neg hc8, if_neg hc9, if_neg hc10, if_neg hc11, if_neg hc12, if_neg hc13, if_pos hc14, if_neg hi14]
          rw [hstep]
          dsimp only
          refine ⟨rfl, ?_, Or.inr ⟨rfl, ?_, havn, ?_⟩⟩
          · intro e he
            simp at he
          · rw [hend1]; omega
          · intro t ht
            injection ht with ht1
            rw [← ht1]
            simp [Lexer.get_current_token]
      case neg =>
      by_cases hc15 : l.start_lexeme.get_current_byte == 47
      case pos =>
        by_cases hi15 : l.start_lexeme.consume_current_byte.current_byte_available && l.start_lexeme.consume_current_byte.get_current_byte == 47
        case pos =>
          have hstep : Lexer.next_token_aux (n + 1) l =
              Lexer.next_token_aux n l.start_lexeme.consume_current_byte.consume_comment_line := by
            simp only [Lexer.next_token_aux]
            rw [if_neg hb, if_neg hc1, if_neg hc2, if_neg hc3, if_neg hc4, if_neg hc5, if_neg hc6, if_neg hc7, if_neg hc8, if_neg hc9, if_neg hc10, if_neg hc11, if_neg hc12, if_neg hc13, if_neg hc14, if_pos hc15, if_pos hi15]
          obtain ⟨e1, e2, e3, e4⟩ := consume_comment_line_spec (l.start_lexeme.consume_current_byte)
          have e1' : (l.start_lexeme.consume_current_byte).consume_comment_line.source = l.source := e1
          have e2' : (l.start_lexeme.consume_current_byte).consume_comment_line.end_of_file_emitted = l.end_of_file_emitted := e2
          have e4' : l.lexeme_end + 1 ≤ (l.start_lexeme.consume_current_byte).consume_comment_line.lexeme_end := e4
          have hsuff : (l.start_lexeme.consume_current_byte).consume_comment_line.source.length -
              (l.start_lexeme.consume_current_byte).consume_comment_line.lexeme_end < n := by
            rw [e1']
            omega
          obtain ⟨i1, i2, i3⟩ := ih (l.start_lexeme.consume_current_byte).consume_comment_line hsuff
          rw [hstep]
          refine ⟨i1.trans e1', i2, ?_⟩
          rcases i3 with h3 | ⟨f3, lt3, _, k3⟩
          · exact Or.inl h3
          · exact Or.inr ⟨f3.trans e2', by omega, havn, k3⟩
        case neg =>
          have hstep : Lexer.next_token_aux (n + 1) l =
              (Except.ok (l.start_lexeme.consume_current_byte.get_current_token TokenKind.Slash), l.start_lexeme.consume_current_byte) := by
            simp only [Lexer.next_token_aux]
            rw [if_neg hb, if_neg hc1, if_neg hc2, if_neg hc3, if_neg hc4, if_neg hc5, if_neg hc6, if_neg hc7, if_neg hc8, if_neg hc9, if_neg hc10, if_neg hc11, if_neg hc12, if_neg hc13, if_neg hc14, if_pos hc15, if_neg hi15]
          rw [hstep]
          dsimp only
          refine ⟨rfl, ?_, Or.inr ⟨rfl, ?_, havn, ?_⟩⟩
          · intro e he
            simp at he
          · rw [hend1]; omega
          · intro t ht
            injection ht with ht1
            rw [← ht1]
            simp [Lexer.get_current_token]
      case neg =>
      by_cases hc16 : l.start_lexeme.get_current_byte == 34
      case pos =>
        rcases hsl : (l.start_lexeme.consume_current_byte).consume_string_literal with ⟨l2, oe⟩
        obtain ⟨⟨s1, s2, s3, s4⟩, serr⟩ := consume_string_literal_spec (l.start_lexeme.consume_current_byte)
        rw [hsl] at s1 s2 s3 s4 serr
        dsimp only at s1 s2 s3 s4 serr
        have s1' : l2.source = l.source := s1
        have s2' : l2.end_of_file_emitted = l.end_of_file_emitted := s2
        have s4' : l.lexeme_end + 1 ≤ l2.lexeme_end := s4
        cases oe with
        | some e =>
          have hstep : Lexer.next_token_aux (n + 1) l = (Except.error e, l2) := by
            simp only [Lexer.next_token_aux]
            rw [if_neg hb, if_neg hc1, if_neg hc2, if_neg hc3, if_neg hc4, if_neg hc5, if_neg hc6, if_neg hc7, if_neg hc8, if_neg hc9, if_neg hc10, if_neg hc11, if_neg hc12, if_neg hc13, if_neg hc14, if_neg hc15, if_pos hc16, hsl]
          rw [hstep]
          dsimp only
          refine ⟨s1', ?_, Or.inr ⟨s2', by omega, havn, ?_⟩⟩
          · intro e' he'
            injection he' with he2
            rw [← he2, serr e rfl]
            exact ⟨rfl, by simp [Lexer.mkError, Lexer.get_current_token]⟩
          · intro t ht
            simp at ht
        | none =>
          have hstep : Lexer.next_token_aux (n + 1) l =
              (Except.ok ⟨TokenKind.String,
                (l2.source.drop (l2.lexeme_start + 1)).take
                  (l2.lexeme_end - 1 - (l2.lexeme_start + 1)),
                l2.line_number⟩, l2) := by
            simp only [Lexer.next_token_aux]
            rw [if_neg hb, if_neg hc1, if_neg hc2, if_neg hc3, if_neg hc4, if_neg hc5, if_neg hc6, if_neg hc7, if_neg hc8, if_neg hc9, if_neg hc10, if_neg hc11, if_neg hc12, if_neg hc13, if_neg hc14, if_neg hc15, if_pos hc16, hsl]
          rw [hstep]
          dsimp only
          refine ⟨s1', ?_, Or.inr ⟨s2', by omega, havn, ?_⟩⟩
          · intro e he
            simp at he
          · intro t ht
            injection ht with ht1
            rw [← ht1]
            simp [Lexer.get_current_token]
      case neg =>
      by_cases hc17 : isAsciiDigit l.start_lexeme.get_current_byte
      case pos =>
        rcases hnl : (l.start_lexeme.consume_current_byte).consume_number_literal with ⟨l2, oe⟩
        obtain ⟨⟨s1, s2, s3, s4⟩, serr⟩ := consume_number_literal_spec (l.start_lexeme.consume_current_byte)
        rw [hnl] at s1 s2 s3 s4 serr
        dsimp only at s1 s2 s3 s4 serr
        have s1' : l2.source = l.source := s1
        have s2' : l2.end_of_file_emitted = l.end_of_file_emitted := s2
        have s4' : l.lexeme_end + 1 ≤ l2.lexeme_end := s4
        cases oe with
        | some e =>
          have hstep : Lexer.next_token_aux (n + 1) l = (Except.error e, l2) := by
            simp only [Lexer.next_token_aux]
            rw [if_neg hb, if_neg hc1, if_neg hc2, if_neg hc3, if_neg hc4, if_neg hc5, if_neg hc6, if_neg hc7, if_neg hc8, if_neg hc9, if_neg hc10, if_neg hc11, if_neg hc12, if_neg hc13, if_neg hc14, if_neg hc15, if_neg hc16, if_pos hc17, hnl]
          rw [hstep]
          dsimp only
          refine ⟨s1', ?_, Or.inr ⟨s2', by omega, havn, ?_⟩⟩
          · intro e' he'
            injection he' with he2
            rw [← he2, serr e rfl]
            exact ⟨rfl, by simp [Lexer.mkError, Lexer.get_current_token]⟩
          · intro t ht
            simp at ht
        | none =>
          have hstep : Lexer.next_token_aux (n + 1) l =
              (Except.ok (l2.get_current_token TokenKind.Number), l2) := by
            simp only [Lexer.next_token_aux]
            rw [if_neg hb, if_neg hc1, if_neg hc2, if_neg hc3, if_neg hc4, if_neg hc5, if_neg hc6, if_neg hc7, if_neg hc8, if_neg hc9, if_neg hc10, if_neg hc11, if_neg hc12, if_neg hc13, if_neg hc14, if_neg hc15, if_neg hc16, if_pos hc17, hnl]
          rw [hstep]
          dsimp only
          refine ⟨s1', ?_, Or.inr ⟨s2', by omega, havn, ?_⟩⟩
          · intro e he
            simp at he
          · intro t ht
            injection ht with ht1
            rw [← ht1]
            simp [Lexer.get_current_token]
      case neg =>
      by_cases hc18 : isAsciiAlphabetic l.start_lexeme.get_current_byte || l.start_lexeme.get_current_byte == 95
      case pos =>
        have hstep : Lexer.next_token_aux (n + 1) l =
            (Except.ok ((l.start_lexeme.consume_current_byte).consume_identifier.get_current_token
              (TokenKind.parse_keyword (l.start_lexeme.consume_current_byte).consume_identifier.get_current_lexeme)),
              (l.start_lexeme.consume_current_byte).consume_identifier) := by
          simp only [Lexer.next_token_aux]
          rw [if_neg hb, if_neg hc1, if_neg hc2, if_neg hc3, if_neg hc4, if_neg hc5, if_neg hc6, if_neg hc7, if_neg hc8, if_neg hc9, if_neg hc10, if_neg hc11, if_neg hc12, if_neg hc13, if_neg hc14, if_neg hc15, if_neg hc16, if_neg hc17, if_pos hc18]
        obtain ⟨e1, e2, e3, e4⟩ := consume_identifier_spec (l.start_lexeme.consume_current_byte)
        have e2' : (l.start_lexeme.consume_current_byte).consume_identifier.end_of_file_emitted = l.end_of_file_emitted := e2
        have e4' : l.lexeme_end + 1 ≤ (l.start_lexeme.consume_current_byte).consume_identifier.lexeme_end := e4
        rw [hstep]
        dsimp only
        refine ⟨e1, ?_, Or.inr ⟨e2', by omega, havn, ?_⟩⟩
        · intro e he
          simp at he
        · intro t ht
          injection ht with ht1
          rw [← ht1]
          exact parse_keyword_ne_end_of_file _
      case neg =>
      by_cases hc19 : isAsciiWhitespace l.start_lexeme.get_current_byte
      case pos =>
        by_cases hn10 : l.start_lexeme.get_current_byte == 10
        case pos =>
          have hstep : Lexer.next_token_aux (n + 1) l =
              Lexer.next_token_aux n (l.start_lexeme.consume_current_byte).increment_line_number.consume_whitespace := by
            simp only [Lexer.next_token_aux]
            rw [if_neg hb, if_neg hc1, if_neg hc2, if_neg hc3, if_neg hc4, if_neg hc5, if_neg hc6, if_neg hc7, if_neg hc8, if_neg hc9, if_neg hc10, if_neg hc11, if_neg hc12, if_neg hc13, if_neg hc14, if_neg hc15, if_neg hc16, if_neg hc17, if_neg hc18, if_pos hc19, if_pos hn10]
          obtain ⟨e1, e2, e3, e4⟩ := consume_whitespace_spec ((l.start_lexeme.consume_current_byte).increment_line_number)
          have e1' : (l.start_lexeme.consume_current_byte).increment_line_number.consume_whitespace.source = l.source := e1
          have e2' : (l.start_lexeme.consume_current_byte).increment_line_number.consume_whitespace.end_of_file_emitted =
              l.end_of_file_emitted := e2
          have e4' : l.lexeme_end + 1 ≤ (l.start_lexeme.consume_current_byte).increment_line_number.consume_whitespace.lexeme_end := e4
          have hsuff : (l.start_lexeme.consume_current_byte).increment_line_number.consume_whitespace.source.length -
              (l.start_lexeme.consume_current_byte).increment_line_number.consume_whitespace.lexeme_end < n := by
            rw [e1']
            omega
          obtain ⟨i1, i2, i3⟩ := ih (l.start_lexeme.consume_current_byte).increment_line_number.consume_whitespace hsuff
          rw [hstep]
          refine ⟨i1.trans e1', i2, ?_⟩
          rcases i3 with h3 | ⟨f3, lt3, _, k3⟩
          · exact Or.inl h3
          · exact Or.inr ⟨f3.trans e2', by omega, havn, k3⟩
        case neg =>
          have hstep : Lexer.next_token_aux (n + 1) l =
              Lexer.next_token_aux n (l.start_lexeme.consume_current_byte).consume_whitespace := by
            simp only [Lexer.next_token_aux]
            rw [if_neg hb, if_neg hc1, if_neg hc2, if_neg hc3, if_neg hc4, if_neg hc5, if_neg hc6, if_neg hc7, if_neg hc8, if_neg hc9, if_neg hc10, if_neg hc11, if_neg hc12, if_neg hc13, if_neg hc14, if_neg hc15, if_neg hc16, if_neg hc17, if_neg hc18, if_pos hc19, if_neg hn10]
          obtain ⟨e1, e2, e3, e4⟩ := consume_whitespace_spec (l.start_lexeme.consume_current_byte)
          have e1' : (l.start_lexeme.consume_current_byte).consume_whitespace.source = l.source := e1
          have e2' : (l.start_lexeme.consume_current_byte).consume_whitespace.end_of_file_emitted = l.end_of_file_emitted := e2
          have e4' : l.lexeme_end + 1 ≤ (l.start_lexeme.consume_current_byte).consume_whitespace.lexeme_end := e4
          have hsuff : (l.start_lexeme.consume_current_byte).consume_whitespace.source.length -
              (l.start_lexeme.consume_current_byte).consume_whitespace.lexeme_end < n := by
            rw [e1']
            omega
          obtain ⟨i1, i2, i3⟩ := ih (l.start_lexeme.consume_current_byte).consume_whitespace hsuff
          rw [hstep]
          refine ⟨i1.trans e1', i2, ?_⟩
          rcases i3 with h3 | ⟨f3, lt3, _, k3⟩
          · exact Or.inl h3
          · exact Or.inr ⟨f3.trans e2', by omega, havn, k3⟩
      case neg =>
      have hstep : Lexer.next_token_aux (n + 1) l =
          (Except.error ((l.start_lexeme.consume_current_byte).consume_unrecognized_lexeme.mkError
            ((l.start_lexeme.consume_current_byte).consume_unrecognized_lexeme.get_current_token TokenKind.Unrecognized)
            LexerErrorKind.Unrecognized),
            (l.start_lexeme.consume_current_byte).consume_unrecognized_lexeme) := by
        simp only [Lexer.next_token_aux]
        rw [if_neg hb, if_neg hc1, if_neg hc2, if_neg hc3, if_neg hc4, if_neg hc5, if_neg hc6, if_neg hc7, if_neg hc8, if_neg hc9, if_neg hc10, if_neg hc11, if_neg hc12, if_neg hc13, if_neg hc14, if_neg hc15, if_neg hc16, if_neg hc17, if_neg hc18, if_neg hc19]
      obtain ⟨e1, e2, e3, e4⟩ := consume_unrecognized_lexeme_spec (l.start_lexeme.consume_current_byte)
      have e2' : (l.start_lexeme.consume_current_byte).consume_unrecognized_lexeme.end_of_file_emitted = l.end_of_file_emitted := e2
      have e4' : l.lexeme_end + 1 ≤ (l.start_lexeme.consume_current_byte).consume_unrecognized_lexeme.lexeme_end := e4
      rw [hstep]
      dsimp only
      refine ⟨e1, ?_, Or.inr ⟨e2', by omega, havn, ?_⟩⟩
      · intro e he
        injection he with he2
        rw [← he2]
        exact ⟨rfl, by simp [Lexer.mkError, Lexer.get_current_token]⟩
      · intro t ht
        simp at ht

/-- `next_token_aux_spec` transported to the `Lexer.next_token` wrapper. -/
theorem next_token_spec (l : Lexer) :
    (l.next_token).2.source = l.source ∧
    (∀ e, (l.next_token).1 = Except.error e →
      e.token.lexeme = (l.next_token).2.get_current_lexeme ∧
      e.token.kind ≠ TokenKind.EndOfFile) ∧
    (((l.next_token).2.end_of_file_emitted = true ∧
      (l.next_token).1 = Except.ok (Token.end_of_file (l.next_token).2.line_number)) ∨
     ((l.next_token).2.end_of_file_emitted = l.end_of_file_emitted ∧
      l.lexeme_end < (l.next_token).2.lexeme_end ∧
      l.lexeme_end < l.source.length ∧
      (∀ t, (l.next_token).1 = Except.ok t → t.kind ≠ TokenKind.EndOfFile))) :=
  next_token_aux_spec (l.source.length - l.lexeme_end + 1) l (Nat.lt_succ_self _)

/-- With sufficient fuel, the materialized stream from a not-yet-exhausted
lexer is a run of non-`EndOfFile` items (at most one per unconsumed source
byte) followed by exactly one final `EndOfFile` token. -/
theorem items_aux_spec : ∀ (n : Nat) (l : Lexer),
    l.end_of_file_emitted = false →
    l.source.length - l.lexeme_end < n →
    ∃ ys line, Lexer.items_aux n l = ys ++ [Except.ok (Token.end_of_file line)] ∧
      (∀ x ∈ ys, itemTokenKind x ≠ TokenKind.EndOfFile) ∧
      ys.length ≤ l.source.length - l.lexeme_end := by
  intro n
  induction n with
  | zero => intro l _ h; exact absurd h (Nat.not_lt_zero _)
  | succ n ih =>
    intro l hflag h
    simp only [Lexer.items_aux, hflag]
    rw [if_neg (by simp)]
    obtain ⟨n1, n2, n3⟩ := next_token_spec l
    rcases n3 with ⟨f1, f2⟩ | ⟨f1, f2, f3, f4⟩
    · refine ⟨[], (l.next_token).2.line_number, ?_, ?_, ?_⟩
      · rw [f2]
        cases n with
        | zero => rfl
        | succ m => simp [Lexer.items_aux, f1]
      · intro x hx
        simp at hx
      · simp
    · have hsuff : (l.next_token).2.source.length - (l.next_token).2.lexeme_end < n := by
        rw [n1]
        omega
      obtain ⟨ys, line, i1, i2, i3⟩ := ih (l.next_token).2 (f1.trans hflag) hsuff
      refine ⟨(l.next_token).1 :: ys, line, ?_, ?_, ?_⟩
      · simp [i1]
      · intro x hx
        rcases List.mem_cons.mp hx with hx1 | hx2
        · rcases hr : (l.next_token).1 with e | t
          · subst hx1
            rw [hr]
            exact fun hk => (n2 e hr).2 hk
          · subst hx1
            rw [hr]
            exact fun hk => f4 t hr hk
        · exact i2 x hx2
      · have hlen : (l.next_token).2.source.length = l.source.length := by rw [n1]
        rw [hlen] at i3
        simp only [List.length_cons]
        omega

/-- Claim C5: for every source string, iterating the `Lexer` yields a
sequence whose final item is the one and only item carrying an `EndOfFile`
token (no earlier item, `Ok` or `Err`, carries that kind), and once
`end_of_file_emitted` is set the iterator yields nothing further (the
Rust `next` returns `None`). -/
theorem C5_stream_single_terminal_end_of_file :
    (∀ source : List Nat, ∃ ys line,
      Lexer.items (Lexer.new source) = ys ++ [Except.ok (Token.end_of_file line)] ∧
      ∀ x ∈ ys, itemTokenKind x ≠ TokenKind.EndOfFile) ∧
    (∀ l : Lexer, l.end_of_file_emitted = true → l.items = []) := by
  constructor
  · intro source
    obtain ⟨ys, line, h1, h2, _⟩ :=
      items_aux_spec ((Lexer.new source).source.length - (Lexer.new source).lexeme_end + 1)
        (Lexer.new source) rfl (Nat.lt_succ_self _)
    exact ⟨ys, line, h1, h2⟩
  · intro l hf
    simp [Lexer.items, Lexer.items_aux, hf]

theorem C5_witness : Lexer.items ⟨[], 0, 0, 1, true⟩ = [] :=
  C5_stream_single_terminal_end_of_file.2 _ rfl

/-- Claim C9: the lexer terminates on every finite source: every
`next_token` call whose result is not the `EndOfFile` token advances
`lexeme_end` by at least one byte (through all branches, including the
recursive comment/whitespace ones), so iterating the lexer to exhaustion
yields at most `source.length + 1` items. -/
theorem C9_progress_and_bound :
    (∀ (l : Lexer) (r : Except LexerError Token) (l' : Lexer), l.next_token = (r, l') →
      (∀ t, r = Except.ok t → t.kind ≠ TokenKind.EndOfFile) →
      l.lexeme_end + 1 ≤ l'.lexeme_end) ∧
    (∀ source : List Nat, (Lexer.items (Lexer.new source)).length ≤ source.length + 1) := by
  constructor
  · intro l r l' hrl hne
    obtain ⟨_, _, h3⟩ := next_token_spec l
    rw [hrl] at h3
    dsimp only at h3
    rcases h3 with ⟨_, f2⟩ | ⟨_, f2, _, _⟩
    · exact absurd rfl (hne _ f2)
    · omega
  · intro source
    obtain ⟨ys, line, h1, _, h3⟩ :=
      items_aux_spec ((Lexer.new source).source.length - (Lexer.new source).lexeme_end + 1)
        (Lexer.new source) rfl (Nat.lt_succ_self _)
    have h1' : Lexer.items (Lexer.new source) = ys ++ [Except.ok (Token.end_of_file line)] := h1
    have h3' : ys.length ≤ source.length - 0 := h3
    rw [h1']
    simp only [List.length_append, List.length_cons, List.length_nil]
    omega

theorem C9_witness :
    (Lexer.new (strBytes "+")).lexeme_end + 1 ≤
      ((Lexer.new (strBytes "+")).next_token).2.lexeme_end :=
  C9_progress_and_bound.1 _ ((Lexer.new (strBytes "+")).next_token).1
    ((Lexer.new (strBytes "+")).next_token).2 rfl (by
      intro t ht
      have hr : ((Lexer.new (strBytes "+")).next_token).1 =
          Except.ok ⟨TokenKind.Plus, strBytes "+", 1⟩ := rfl
      rw [hr] at ht
      injection ht with h
      rw [← h]
      decide)

/-- Claim C3, counterexample: lexing `1.` yields a `NumberTrailingDot`
error whose token lexeme is `1` (the dot, the failure byte, is NOT part
of the lexeme), and the next call re-scans the dot, yielding a `Dot`
token before `EndOfFile` — refuting both "the lexeme is the maximal run
up to and including the failure" and "scanning resumes after the dot". -/
theorem C3_counterexample :
    Lexer.items (Lexer.new (strBytes "1.")) =
      [Except.error ⟨LexerErrorKind.NumberTrailingDot, ⟨TokenKind.Number, strBytes "1", 1⟩, 1⟩,
       Except.ok ⟨TokenKind.Dot, strBytes ".", 1⟩,
       Except.ok (Token.end_of_file 1)] := rfl

/-- Claim C3, amended: for every lexical error, the error's token lexeme
is exactly the run of bytes the lexer consumed for that lexeme — the
half-open range `[lexeme_start, lexeme_end)` of the state in which the
lexer resumes — so no byte of the lexeme is ever re-scanned; for
`NumberTrailingDot` the unconsumed dot is not part of the lexeme and is
re-scanned as a `Dot` token (see `C3_counterexample`). -/
theorem C3_amended_error_lexeme :
    ∀ (l : Lexer) (e : LexerError) (l' : Lexer),
      l.next_token = (Except.error e, l') →
      e.token.lexeme = l'.get_current_lexeme ∧ l'.source = l.source := by
  intro l e l' hrl
  obtain ⟨h1, h2, _⟩ := next_token_spec l
  rw [hrl] at h1 h2
  dsimp only at h1 h2
  exact ⟨(h2 e rfl).1, h1⟩

theorem C3_amended_witness :
    (⟨LexerErrorKind.Unrecognized, ⟨TokenKind.Unrecognized, strBytes "#", 1⟩, 1⟩ :
        LexerError).token.lexeme =
      (⟨strBytes "#", 0, 1, 1, false⟩ : Lexer).get_current_lexeme ∧
    (⟨strBytes "#", 0, 1, 1, false⟩ : Lexer).source = (Lexer.new (strBytes "#")).source :=
  C3_amended_error_lexeme (Lexer.new (strBytes "#")) _ _ rfl

/-- Claim C4, evaluation at the failing input: lexing `#(` yields one
`Unrecognized` error whose lexeme is the whole string `#(` — the
recognized byte `(` is swallowed into the unrecognized run because
`is_current_byte_unrecognized` maps the recognized punctuation bytes to
`true` — followed by `EndOfFile`; the claim instead requires the lexeme
`#` with `(` lexed as a `LeftParentheses` token. -/
theorem C4_unrecognized_run_eval :
    Lexer.items (Lexer.new (strBytes "#(")) =
      [Except.error ⟨LexerErrorKind.Unrecognized, ⟨TokenKind.Unrecognized, strBytes "#(", 1⟩, 1⟩,
       Except.ok (Token.end_of_file 1)] := rfl

/-- Taking exactly the length of a `takeWhile` prefix yields that prefix. -/
theorem take_takeWhile_length (p : Nat → Bool) : ∀ xs : List Nat,
    xs.take (xs.takeWhile p).length = xs.takeWhile p := by
  intro xs
  induction xs with
  | nil => rfl
  | cons x xs ih =>
    by_cases hx : p x
    · simp [List.takeWhile_cons, hx, ih]
    · simp [List.takeWhile_cons, hx]

/-- `consume_string_literal` scans forward to just past the first `"` byte
(byte 34) when one exists, and otherwise consumes to the end of the source
and reports `UnterminatedStringLiteral` from the exhausted state. -/
theorem consume_string_literal_aux_characterization : ∀ (n : Nat) (l : Lexer),
    l.source.length - l.lexeme_end ≤ n →
    l.lexeme_end ≤ l.source.length →
    ( (l.source.drop l.lexeme_end).any (fun b => b == 34) = true →
      Lexer.consume_string_literal_aux n l =
        ({ l with lexeme_end :=
            l.lexeme_end + ((l.source.drop l.lexeme_end).takeWhile (fun b => !(b == 34))).length + 1 },
          none) ) ∧
    ( (l.source.drop l.lexeme_end).any (fun b => b == 34) = false →
      Lexer.consume_string_literal_aux n l =
        ({ l with lexeme_end := l.source.length },
          some (({ l with lexeme_end := l.source.length } : Lexer).mkError
            (({ l with lexeme_end := l.source.length } : Lexer).get_current_token TokenKind.String)
            LexerErrorKind.UnterminatedStringLiteral)) ) := by
  intro n
  induction n with
  | zero =>
    intro l h hle
    have hend : l.lexeme_end = l.source.length := by omega
    have hdrop : l.source.drop l.lexeme_end = [] := by
      rw [hend]
      exact List.drop_length _
    constructor
    · intro hany
      rw [hdrop] at hany
      simp at hany
    · intro _
      have hl : ({ l with lexeme_end := l.source.length } : Lexer) = l := by rw [← hend]
      rw [hl]
      rfl
  | succ n ih =>
    intro l h hle
    by_cases havail : l.current_byte_available
    case neg =>
      have hend : l.lexeme_end = l.source.length := by
        simp [Lexer.current_byte_available] at havail
        omega
      have hdrop : l.source.drop l.lexeme_end = [] := by
        rw [hend]
        exact List.drop_length _
      constructor
      · intro hany
        rw [hdrop] at hany
        simp at hany
      · intro _
        have hl : ({ l with lexeme_end := l.source.length } : Lexer) = l := by rw [← hend]
        rw [hl]
        simp only [Lexer.consume_string_literal_aux]
        rw [if_neg havail]
    case pos =>
      have hlt : l.lexeme_end < l.source.length := by
        simpa [Lexer.current_byte_available] using havail
      have hdrop : l.source.drop l.lexeme_end =
          l.get_current_byte :: l.source.drop (l.lexeme_end + 1) := by
        rw [List.drop_eq_getElem_cons hlt]
        congr 1
        exact (List.getD_eq_getElem l.source 0 hlt).symm
      by_cases hq : l.get_current_byte == 34
      case pos =>
        have hstep : Lexer.consume_string_literal_aux (n + 1) l = (l.consume_current_byte, none) := by
          simp only [Lexer.consume_string_literal_aux]
          rw [if_pos havail, if_pos hq]
        constructor
        · intro _
          rw [hstep, hdrop, List.takeWhile_cons]
          simp [hq, Lexer.consume_current_byte]
        · intro hany
          rw [hdrop] at hany
          simp [hq] at hany
      case neg =>
        have hqf : (l.get_current_byte == 34) = false := by simpa using hq
        have hfuel : l.consume_current_byte.source.length - l.consume_current_byte.lexeme_end ≤ n := by
          show l.source.length - (l.lexeme_end + 1) ≤ n
          omega
        have hle2 : l.consume_current_byte.lexeme_end ≤ l.consume_current_byte.source.length := by
          show l.lexeme_end + 1 ≤ l.source.length
          omega
        obtain ⟨ih1, ih2⟩ := ih l.consume_current_byte hfuel hle2
        have hstep : Lexer.consume_string_literal_aux (n + 1) l =
            Lexer.consume_string_literal_aux n l.consume_current_byte := by
          simp only [Lexer.consume_string_literal_aux]
          rw [if_pos havail, if_neg hq]
        constructor
        · intro hany
          have hany' : (l.consume_current_byte.source.drop
              l.consume_current_byte.lexeme_end).any (fun b => b == 34) = true := by
            show (l.source.drop (l.lexeme_end + 1)).any (fun b => b == 34) = true
            rw [hdrop, List.any_cons, hqf] at hany
            simpa using hany
          have ih1' : Lexer.consume_string_literal_aux n l.consume_current_byte =
              ({ l with lexeme_end := l.lexeme_end + 1 +
                  ((l.source.drop (l.lexeme_end + 1)).takeWhile (fun b => !(b == 34))).length + 1 },
                none) := ih1 hany'
          have hT : ((l.source.drop l.lexeme_end).takeWhile (fun b => !(b == 34))).length =
              ((l.source.drop (l.lexeme_end + 1)).takeWhile (fun b => !(b == 34))).length + 1 := by
            rw [hdrop, List.takeWhile_cons]
            rw [if_pos (by simp [hqf])]
            simp
          have harith : l.lexeme_end + 1 +
              ((l.source.drop (l.lexeme_end + 1)).takeWhile (fun b => !(b == 34))).length + 1 =
              l.lexeme_end +
                (((l.source.drop (l.lexeme_end + 1)).takeWhile (fun b => !(b == 34))).length + 1) + 1 := by
            omega
          rw [hstep, ih1', hT, harith]
        · intro hany
          have hany' : (l.consume_current_byte.source.drop
              l.consume_current_byte.lexeme_end).any (fun b => b == 34) = false := by
            show (l.source.drop (l.lexeme_end + 1)).any (fun b => b == 34) = false
            rw [hdrop, List.any_cons, hqf] at hany
            simpa using hany
          have ih2' : Lexer.consume_string_literal_aux n l.consume_current_byte =
              ({ l with lexeme_end := l.source.length },
                some (({ l with lexeme_end := l.source.length } : Lexer).mkError
                  (({ l with lexeme_end := l.source.length } : Lexer).get_current_token TokenKind.String)
                  LexerErrorKind.UnterminatedStringLiteral)) := ih2 hany'
          rw [hstep]
          exact ih2'

/-- C6: lexing a string literal starting at a `\"` byte fails with
`UnterminatedStringLiteral` exactly when no closing quote follows, and on
success the token lexeme is the source text strictly between the quotes;
lexing `"abc` (no closing quote) yields exactly one such error and then
`EndOfFile`. -/
theorem C6_string_literal :
    (∀ l : Lexer, l.lexeme_end < l.source.length → l.get_current_byte = 34 →
      ( (l.source.drop (l.lexeme_end + 1)).any (fun b => b == 34) = false →
        (l.next_token).1 = Except.error ⟨LexerErrorKind.UnterminatedStringLiteral,
          ⟨TokenKind.String,
            (l.source.drop l.lexeme_end).take (l.source.length - l.lexeme_end),
            l.line_number⟩,
          l.line_number⟩ ) ∧
      ( (l.source.drop (l.lexeme_end + 1)).any (fun b => b == 34) = true →
        (l.next_token).1 = Except.ok ⟨TokenKind.String,
          (l.source.drop (l.lexeme_end + 1)).takeWhile (fun b => !(b == 34)),
          l.line_number⟩ ) ) ∧
    Lexer.items (Lexer.new (strBytes "\"abc")) =
      [Except.error ⟨LexerErrorKind.UnterminatedStringLiteral,
        ⟨TokenKind.String, strBytes "\"abc", 1⟩, 1⟩,
       Except.ok (Token.end_of_file 1)] := by
  constructor
  case right => rfl
  intro l hlt hgb
  have hav : l.current_byte_available = true := by
    simpa [Lexer.current_byte_available] using hlt
  have hb : ¬(!l.current_byte_available) = true := by simp [hav]
  have hgb' : l.start_lexeme.get_current_byte = 34 := hgb
  have hc1 : ¬(l.start_lexeme.get_current_byte == 40) = true := by
    rw [hgb']
    decide
  have hc2 : ¬(l.start_lexeme.get_current_byte == 41) = true := by
    rw [hgb']
    decide
  have hc3 : ¬(l.start_lexeme.get_current_byte == 123) = true := by
    rw [hgb']
    decide
  have hc4 : ¬(l.start_lexeme.get_current_byte == 125) = true := by
    rw [hgb']
    decide
  have hc5 : ¬(l.start_lexeme.get_current_byte == 44) = true := by
    rw [hgb']
    decide
  have hc6 : ¬(l.start_lexeme.get_current_byte == 46) = true := by
    rw [hgb']
    decide
  have hc7 : ¬(l.start_lexeme.get_current_byte == 45) = true := by
    rw [hgb']
    decide
  have hc8 : ¬(l.start_lexeme.get_current_byte == 43) = true := by
    rw [hgb']
    decide
  have hc9 : ¬(l.start_lexeme.get_current_byte == 59) = true := by
    rw [hgb']
    decide
  have hc10 : ¬(l.start_lexeme.get_current_byte == 42) = true := by
    rw [hgb']
    decide
  have hc11 : ¬(l.start_lexeme.get_current_byte == 33) = true := by
    rw [hgb']
    decide
  have hc12 : ¬(l.start_lexeme.get_current_byte == 61) = true := by
    rw [hgb']
    decide
  have hc13 : ¬(l.start_lexeme.get_current_byte == 60) = true := by
    rw [hgb']
    decide
  have hc14 : ¬(l.start_lexeme.get_current_byte == 62) = true := by
    rw [hgb']
    decide
  have hc15 : ¬(l.start_lexeme.get_current_byte == 47) = true := by
    rw [hgb']
    decide
  have hc16 : (l.start_lexeme.get_current_byte == 34) = true := by
    rw [hgb']
    decide
  have hch := consume_string_literal_aux_characterization
    ((l.start_lexeme.consume_current_byte).source.length - (l.start_lexeme.consume_current_byte).lexeme_end) (l.start_lexeme.consume_current_byte) (Nat.le_refl _)
    (by show l.lexeme_end + 1 ≤ l.source.length; omega)
  constructor
  · intro hany
    have hanyA : ((l.start_lexeme.consume_current_byte).source.drop (l.start_lexeme.consume_current_byte).lexeme_end).any (fun b => b == 34) = false := hany
    have hsl : (l.start_lexeme.consume_current_byte).consume_string_literal =
        ({ l with lexeme_start := l.lexeme_end, lexeme_end := l.source.length },
          some ⟨LexerErrorKind.UnterminatedStringLiteral,
            ⟨TokenKind.String,
              (l.source.drop l.lexeme_end).take (l.source.length - l.lexeme_end),
              l.line_number⟩,
            l.line_number⟩) := hch.2 hanyA
    have hstep : l.next_token = (Except.error ⟨LexerErrorKind.UnterminatedStringLiteral,
        ⟨TokenKind.String,
          (l.source.drop l.lexeme_end).take (l.source.length - l.lexeme_end),
          l.line_number⟩,
        l.line_number⟩,
        { l with lexeme_start := l.lexeme_end, lexeme_end := l.source.length }) := by
      simp only [Lexer.next_token, Lexer.next_token_aux]
      rw [if_neg hb, if_neg hc1, if_neg hc2, if_neg hc3, if_neg hc4, if_neg hc5, if_neg hc6, if_neg hc7, if_neg hc8, if_neg hc9, if_neg hc10, if_neg hc11, if_neg hc12, if_neg hc13, if_neg hc14, if_neg hc15, if_pos hc16, hsl]
    rw [hstep]
  · intro hany
    have hanyA : ((l.start_lexeme.consume_current_byte).source.drop (l.start_lexeme.consume_current_byte).lexeme_end).any (fun b => b == 34) = true := hany
    have hsl : (l.start_lexeme.consume_current_byte).consume_string_literal =
        ({ l with lexeme_start := l.lexeme_end, lexeme_end := l.lexeme_end + 1 + ((l.source.drop (l.lexeme_end + 1)).takeWhile (fun b => !(b == 34))).length + 1 }, none) := hch.1 hanyA
    have hstep : l.next_token = (Except.ok ⟨TokenKind.String,
        (l.source.drop (l.lexeme_end + 1)).take
          (l.lexeme_end + 1 + ((l.source.drop (l.lexeme_end + 1)).takeWhile (fun b => !(b == 34))).length + 1 - 1 - (l.lexeme_end + 1)),
        l.line_number⟩,
        { l with lexeme_start := l.lexeme_end, lexeme_end := l.lexeme_end + 1 + ((l.source.drop (l.lexeme_end + 1)).takeWhile (fun b => !(b == 34))).length + 1 }) := by
      simp only [Lexer.next_token, Lexer.next_token_aux]
      rw [if_neg hb, if_neg hc1, if_neg hc2, if_neg hc3, if_neg hc4, if_neg hc5, if_neg hc6, if_neg hc7, if_neg hc8, if_neg hc9, if_neg hc10, if_neg hc11, if_neg hc12, if_neg hc13, if_neg hc14, if_neg hc15, if_pos hc16, hsl]
    have harith : l.lexeme_end + 1 + ((l.source.drop (l.lexeme_end + 1)).takeWhile (fun b => !(b == 34))).length + 1 - 1 - (l.lexeme_end + 1) = ((l.source.drop (l.lexeme_end + 1)).takeWhile (fun b => !(b == 34))).length := by omega
    rw [hstep, harith, take_takeWhile_length]

theorem C6_witness :
    ((Lexer.new (strBytes "\"ab\"")).next_token).1 =
      Except.ok ⟨TokenKind.String,
        ((Lexer.new (strBytes "\"ab\"")).source.drop
          ((Lexer.new (strBytes "\"ab\"")).lexeme_end + 1)).takeWhile (fun b => !(b == 34)),
        (Lexer.new (strBytes "\"ab\"")).line_number⟩ :=
  (C6_string_literal.1 (Lexer.new (strBytes "\"ab\"")) (by decide) (by decide)).2 (by decide)

/-- Claim C1: every binary-precedence rule (equality, comparison, term,
factor) is left-associative: for any two operators of the same precedence
level, parsing `operand op1 operand op2 operand` folds into a left-leaning
tree; in particular parsing the tokens of `1 - 2 - 3` yields
`Binary(Binary(1, -, 2), -, 3)` and never the right-leaning tree. -/
theorem C1_left_associative_folds :
    (∀ level ∈ [TokenKind.EQUALITY_OPERATORS, TokenKind.COMPARISON_OPERATORS,
        TokenKind.TERM_OPERATORS, TokenKind.FACTOR_OPERATORS],
      ∀ k1 ∈ level, ∀ k2 ∈ level,
        Parser.expression_rule 64 (Parser.new
          [numberToken "1", operatorToken k1, numberToken "2", operatorToken k2,
           numberToken "3", Token.end_of_file 1]) =
        some (Except.ok (Expression.Binary
            (Expression.Binary (Expression.Literal (numberToken "1")) (operatorToken k1)
              (Expression.Literal (numberToken "2"))) (operatorToken k2)
            (Expression.Literal (numberToken "3")),
          ⟨[numberToken "1", operatorToken k1, numberToken "2", operatorToken k2,
            numberToken "3", Token.end_of_file 1], 5⟩))) ∧
    Parser.try_from (Lexer.new (strBytes "1 - 2 - 3")) = Except.ok (Parser.new tokens131) ∧
    Parser.expression_rule 64 (Parser.new tokens131) =
      some (Except.ok (leftTree131, ⟨tokens131, 5⟩)) ∧
    ∀ p' : Parser, Parser.expression_rule 64 (Parser.new tokens131) ≠
      some (Except.ok (rightTree131, p')) := by
  refine ⟨by decide, rfl, rfl, ?_⟩
  intro p' h
  rw [show Parser.expression_rule 64 (Parser.new tokens131) =
    some (Except.ok (leftTree131, ⟨tokens131, 5⟩)) from rfl] at h
  injection h with h1
  injection h1 with h2
  injection h2 with h3 h4
  exact absurd h3 (by decide)

theorem C1_witness :
    Parser.expression_rule 64 (Parser.new
      [numberToken "1", operatorToken TokenKind.Minus, numberToken "2",
       operatorToken TokenKind.Minus, numberToken "3", Token.end_of_file 1]) =
    some (Except.ok (Expression.Binary
        (Expression.Binary (Expression.Literal (numberToken "1"))
          (operatorToken TokenKind.Minus) (Expression.Literal (numberToken "2")))
        (operatorToken TokenKind.Minus) (Expression.Literal (numberToken "3")),
      ⟨[numberToken "1", operatorToken TokenKind.Minus, numberToken "2",
        operatorToken TokenKind.Minus, numberToken "3", Token.end_of_file 1], 5⟩)) :=
  C1_left_associative_folds.1 TokenKind.TERM_OPERATORS (by decide)
    TokenKind.Minus (by decide) TokenKind.Minus (by decide)

/-- Claim C2: the parser implements the fixed precedence hierarchy
equality < comparison < term < factor: for any looser-level operator
`kLo` and strictly tighter-level operator `kHi`, the tighter operator
binds its operands first on either side; in particular parsing the tokens
of `1 + 2 * 3` yields `Binary(1, +, Binary(2, *, 3))`. -/
theorem C2_precedence_hierarchy :
    (∀ pr ∈ [(TokenKind.EQUALITY_OPERATORS, TokenKind.COMPARISON_OPERATORS),
        (TokenKind.EQUALITY_OPERATORS, TokenKind.TERM_OPERATORS),
        (TokenKind.EQUALITY_OPERATORS, TokenKind.FACTOR_OPERATORS),
        (TokenKind.COMPARISON_OPERATORS, TokenKind.TERM_OPERATORS),
        (TokenKind.COMPARISON_OPERATORS, TokenKind.FACTOR_OPERATORS),
        (TokenKind.TERM_OPERATORS, TokenKind.FACTOR_OPERATORS)],
      ∀ kLo ∈ pr.1, ∀ kHi ∈ pr.2,
        Parser.expression_rule 64 (Parser.new
          [numberToken "1", operatorToken kLo, numberToken "2", operatorToken kHi,
           numberToken "3", Token.end_of_file 1]) =
        some (Except.ok (Expression.Binary (Expression.Literal (numberToken "1"))
            (operatorToken kLo)
            (Expression.Binary (Expression.Literal (numberToken "2")) (operatorToken kHi)
              (Expression.Literal (numberToken "3"))),
          ⟨[numberToken "1", operatorToken kLo, numberToken "2", operatorToken kHi,
            numberToken "3", Token.end_of_file 1], 5⟩)) ∧
        Parser.expression_rule 64 (Parser.new
          [numberToken "1", operatorToken kHi, numberToken "2", operatorToken kLo,
           numberToken "3", Token.end_of_file 1]) =
        some (Except.ok (Expression.Binary
            (Expression.Binary (Expression.Literal (numberToken "1")) (operatorToken kHi)
              (Expression.Literal (numberToken "2"))) (operatorToken kLo)
            (Expression.Literal (numberToken "3")),
          ⟨[numberToken "1", operatorToken kHi, numberToken "2", operatorToken kLo,
            numberToken "3", Token.end_of_file 1], 5⟩))) ∧
    Parser.try_from (Lexer.new (strBytes "1 + 2 * 3")) = Except.ok (Parser.new tokens123) ∧
    Parser.expression_rule 64 (Parser.new tokens123) =
      some (Except.ok (tree123, ⟨tokens123, 5⟩)) :=
  ⟨by decide, rfl, rfl⟩

theorem C2_witness :
    Parser.expression_rule 64 (Parser.new
      [numberToken "1", operatorToken TokenKind.Plus, numberToken "2",
       operatorToken TokenKind.Star, numberToken "3", Token.end_of_file 1]) =
    some (Except.ok (Expression.Binary (Expression.Literal (numberToken "1"))
        (operatorToken TokenKind.Plus)
        (Expression.Binary (Expression.Literal (numberToken "2")) (operatorToken TokenKind.Star)
          (Expression.Literal (numberToken "3"))),
      ⟨[numberToken "1", operatorToken TokenKind.Plus, numberToken "2",
        operatorToken TokenKind.Star, numberToken "3", Token.end_of_file 1], 5⟩)) :=
  (C2_precedence_hierarchy.1 (TokenKind.TERM_OPERATORS, TokenKind.FACTOR_OPERATORS) (by decide)
    TokenKind.Plus (by decide) TokenKind.Star (by decide)).1

/-- Claim C7: whenever a `(` has been consumed, the inner expression
parses successfully and the following token is not `)`, the parser
returns a `MissingRightParenthesis` error carrying the current
(non-matching) token; in particular parsing the tokens of `(1 + 2`
yields `MissingRightParenthesis` (carrying the `EndOfFile` token). -/
theorem C7_missing_right_parenthesis :
    (∀ (n : Nat) (p : Parser) (expr : Expression) (p2 : Parser),
      p.peek_current_token.kind = TokenKind.LeftParentheses →
      Parser.expression_rule n p.consume_current_token = some (Except.ok (expr, p2)) →
      p2.peek_current_token.kind ≠ TokenKind.RightParentheses →
      Parser.primary_rule (n + 1) p =
        some (Except.error ⟨ParseErrorKind.MissingRightParenthesis, p2.peek_current_token⟩)) ∧
    Parser.try_from (Lexer.new (strBytes "(1 + 2")) = Except.ok (Parser.new tokensC7) ∧
    Parser.expression_rule 64 (Parser.new tokensC7) =
      some (Except.error ⟨ParseErrorKind.MissingRightParenthesis, Token.end_of_file 1⟩) := by
  refine ⟨?_, rfl, rfl⟩
  intro n p expr p2 hk hexp hne
  have hend : p.is_at_end = false := by
    simp [Parser.is_at_end, Token.is_end_of_file, TokenKind.is_end_of_file, hk]
  have h1 : p.consume_current_token_of_kind [TokenKind.False] = (false, p) := by
    simp [Parser.consume_current_token_of_kind, Parser.is_current_token, hk]
  have h2 : p.consume_current_token_of_kind [TokenKind.True] = (false, p) := by
    simp [Parser.consume_current_token_of_kind, Parser.is_current_token, hk]
  have h3 : p.consume_current_token_of_kind [TokenKind.Nil] = (false, p) := by
    simp [Parser.consume_current_token_of_kind, Parser.is_current_token, hk]
  have h4 : p.consume_current_token_of_kind [TokenKind.Number, TokenKind.String] = (false, p) := by
    simp [Parser.consume_current_token_of_kind, Parser.is_current_token, hk]
  have h5 : p.consume_current_token_of_kind [TokenKind.LeftParentheses] =
      (true, p.consume_current_token) := by
    simp [Parser.consume_current_token_of_kind, Parser.is_current_token, hk, hend]
  have h6 : p2.consume_current_token_of_kind [TokenKind.RightParentheses] = (false, p2) := by
    simp [Parser.consume_current_token_of_kind, Parser.is_current_token, hne]
  simp only [Parser.primary_rule, h1, h2, h3, h4, h5, hexp, h6]

theorem C7_witness :
    Parser.primary_rule (63 + 1) (Parser.new tokensC7) =
      some (Except.error ⟨ParseErrorKind.MissingRightParenthesis, Token.end_of_file 1⟩) :=
  C7_missing_right_parenthesis.1 63 (Parser.new tokensC7)
    (Expression.Binary (Expression.Literal ⟨TokenKind.Number, strBytes "1", 1⟩)
      ⟨TokenKind.Plus, strBytes "+", 1⟩
      (Expression.Literal ⟨TokenKind.Number, strBytes "2", 1⟩))
    ⟨tokensC7, 4⟩ (by decide) (by decide) (by decide)

/-- Claim C8: the canonical AST rendering prints binary and unary nodes
as `(operator-lexeme operand...)`, groupings as `(group inner)` and
literals as their raw lexeme; end to end, printing the parse of
`-123 * (45.67)` yields the byte string `(* (- 123) (group 45.67))`. -/
theorem C8_canonical_print :
    Parser.try_from (Lexer.new (strBytes "-123 * (45.67)")) = Except.ok (Parser.new tokensC8) ∧
    Parser.expression_rule 64 (Parser.new tokensC8) =
      some (Except.ok (treeC8, ⟨tokensC8, 6⟩)) ∧
    Expression.print treeC8 = strBytes "(* (- 123) (group 45.67))" :=
  ⟨rfl, rfl, rfl⟩

/-- Claim C10: a successful parse consumes only the first complete
top-level expression: on `[Number \"1\", Number \"2\", EndOfFile]`,
`expression_rule` returns `Ok (Literal \"1\")` with the cursor at index 1,
not at end, with the second `Number` token still unconsumed and no error
raised for the trailing token. -/
theorem C10_trailing_tokens_unconsumed :
    Parser.expression_rule 64 (Parser.new tokensC10) =
      some (Except.ok (Expression.Literal ⟨TokenKind.Number, strBytes "1", 1⟩,
        ⟨tokensC10, 1⟩)) ∧
    (⟨tokensC10, 1⟩ : Parser).is_at_end = false ∧
    (⟨tokensC10, 1⟩ : Parser).peek_current_token = ⟨TokenKind.Number, strBytes "2", 1⟩ :=
  ⟨rfl, rfl, rfl⟩
